import Mathlib

/-!
# cuehttp: the per-connection actor (`cuehttp/detail/connection.hpp`)

A shallow embedding of `cue::http::detail::base_connection` and of the two
`connection` specialisations.

* Bytes are natural numbers; the bit operations of the source are the
  bit operations of `Nat`.
* Member functions become functions on the record `base_connection`.  A
  function returns `none` where the source dereferences a null `ws_helper_`,
  reads the front of an empty queue, lets `resize` throw or hands a read a
  region outside its buffer.
* An asynchronous operation that the source starts is put into `pending`
  together with the values its completion handler captured; the completion
  handler is a function of its own (`..._completion`) that takes what the
  transport reports.
* Every action (handler call, event delivered to the session consumer,
  socket call, frame enqueued, operation started) is appended to `trace`
  in program order.
-/

namespace cuehttp

/-! ## Types declared outside `connection.hpp` -/

/-- Modelled from the spec: the enumerator `detail::ws_opcode::continuation`
(the enum is declared outside this file); frame type tags carry their wire values. -/
def ws_opcode.continuation : Nat := 0

/-- Modelled from the spec: the enumerator `detail::ws_opcode::text`. -/
def ws_opcode.text : Nat := 1

/-- Modelled from the spec: the enumerator `detail::ws_opcode::binary`. -/
def ws_opcode.binary : Nat := 2

/-- Modelled from the spec: the enumerator `detail::ws_opcode::close`. -/
def ws_opcode.close : Nat := 8

/-- Modelled from the spec: the enumerator `detail::ws_opcode::ping`. -/
def ws_opcode.ping : Nat := 9

/-- Modelled from the spec: the enumerator `detail::ws_opcode::pong`. -/
def ws_opcode.pong : Nat := 10

/-- Modelled from the spec: `detail::ws_frame` (declared outside this file), the unit
exchanged with the outbound queue: opcode and payload bytes. -/
structure ws_frame where
  opcode : Nat := 0
  payload : List Nat := []
deriving DecidableEq, Repr

/-- Modelled from the spec: `detail::ws_reader` (declared outside this file), the decode
state of the frame reader.  The fields are the ones `connection.hpp` reads and writes. -/
structure ws_reader where
  header : List Nat := [0, 0]
  fin : Bool := false
  opcode : Nat := 0
  has_mask : Bool := false
  length : Nat := 0
  length_mask_buffer : List Nat := []
  mask : List Nat := [0, 0, 0, 0]
  payload_buffer : List Nat := []
  last_fin : Bool := true
deriving DecidableEq, Repr

/-- Modelled from the spec: the request half of a request context, with the accessors
`connection.hpp` calls. -/
structure request where
  major_version : Nat := 1
  minor_version : Nat := 1
  keepalive : Bool := true
  websocket : Bool := false
deriving DecidableEq, Repr

/-- Modelled from the spec: the response half of a request context.  `content` stands for
whatever the handler put into the response; it is only read through `to_string`. -/
structure response where
  major_version : Nat := 1
  minor_version : Nat := 1
  keepalive : Bool := true
  is_stream : Bool := false
  content : String := ""
deriving DecidableEq, Repr

/-- Modelled from the spec: a request context produced by the parser: one request, one
response and the websocket object `websocket_ptr()` hands out (named by a number). -/
structure context where
  req : request := {}
  res : response := {}
  websocket_ptr : Nat := 0
deriving DecidableEq, Repr

/-- The collaborators `connection.hpp` calls but does not define: the handler callback
`handler_`, `response::to_string` and `detail::utils::get_message_for_status`. -/
structure collaborators where
  handler : context → context
  to_string : response → String
  get_message_for_status : Nat → String

/-- Modelled from the spec: `detail::to_be` (from `endian.hpp`) followed by the write of
the value's object representation: the `w` bytes of `v` in network byte order. -/
def to_be_bytes : Nat → Nat → List Nat
  | 0, _ => []
  | w + 1, v => (v / 256 ^ w % 256) :: to_be_bytes w v

/-- Modelled from the spec: `detail::from_be` (from `endian.hpp`) applied to the integer
read from the given bytes: their value in network byte order. -/
def from_be_bytes (bs : List Nat) : Nat :=
  bs.foldl (fun acc b => acc * 256 + b) 0

/-- The `std::vector<char>::resize(n)` call: truncate, or pad with zero bytes. -/
def resize (n : Nat) (buf : List Nat) : List Nat :=
  buf.take n ++ List.replicate (n - buf.length) 0

/-- The largest size `std::vector<char>::resize` accepts, `max_size()` of the 64-bit
standard libraries: a larger request throws `std::length_error`. -/
def max_size : Nat := 2 ^ 63 - 1

/-- An exact read into `buf.data() + offset`: the bytes received overwrite the region
that starts at `offset`. -/
def write_at (buf : List Nat) (offset : Nat) (data : List Nat) : List Nat :=
  buf.take offset ++ data ++ buf.drop (offset + data.length)

/-! ## The connection -/

/-- An asynchronous operation in flight, with the values its completion handler captured
(for `write_ws`: the bytes of the stream buffer handed to the write). -/
inductive async_op where
  | read_some
  | write (buffers : String) (is_close : Bool)
  | read_ws_header
  | read_ws_length_and_mask (bytes length : Nat)
  | read_ws_payload (offset length : Nat)
  | write_ws (data : List Nat)
  | handshake
deriving DecidableEq, Repr

/-- An action of the connection: a handler call, an event delivered to the session
consumer, a socket call, a frame put into the outbound queue, an operation started.  The
open and the close event are recorded with the value the member `ws_handshake_` holds while
the consumer is called, so that the trace tells on which side of the write to the flag
the call is made. -/
inductive effect where
  | handler_call (ctx : context)
  | parser_reset
  | emit_open (websocket : Nat) (ws_handshake_ : Bool)
  | emit_close (websocket : Nat) (ws_handshake_ : Bool)
  | emit_msg (websocket : Nat) (payload : List Nat)
  | socket_shutdown
  | socket_close
  | enqueue (frame : ws_frame)
  | start (op : async_op)
deriving DecidableEq, Repr

/-- The nested `struct ws_helper` (the mutex is not modelled: every function below is one
atomic step). -/
structure ws_helper where
  websocket_ : Nat := 0
  buffer_ : List Nat := []
  ws_reader_ : ws_reader := {}
  write_queue_ : List ws_frame := []
deriving DecidableEq, Repr

/-- The data members of `base_connection` (and `has_handshake_` of the TLS
specialisation; `https` tells which specialisation this is), the contexts held by the
parser, the operations in flight and the trace of actions. -/
structure base_connection where
  https : Bool := false
  has_handshake_ : Bool := false
  ws_handshake_ : Bool := false
  ws_helper_ : Option ws_helper := none
  parser_contexts : List context := []
  pending : List async_op := []
  trace : List effect := []
deriving DecidableEq, Repr

/-- Record an action. -/
def base_connection.emit (c : base_connection) (a : effect) : base_connection :=
  { c with trace := c.trace ++ [a] }

/-- Start an asynchronous operation: it is in flight until its completion runs. -/
def base_connection.async (c : base_connection) (op : async_op) : base_connection :=
  { c with pending := c.pending ++ [op], trace := c.trace ++ [effect.start op] }

/-- The member `close()`. -/
def close (c : base_connection) : Option base_connection :=
  if c.ws_handshake_ then
    match c.ws_helper_ with
    | none => none
    | some h =>
      let c1 := c.emit (effect.emit_close h.websocket_ c.ws_handshake_)
      let c2 := { c1 with ws_handshake_ := false }
      some ((c2.emit effect.socket_shutdown).emit effect.socket_close)
  else
    some ((c.emit effect.socket_shutdown).emit effect.socket_close)

/-- The member `do_read_some()`: one partial read into the parser's buffer. -/
def do_read_some (c : base_connection) : Option base_connection :=
  some (c.async async_op.read_some)

/-- The member `do_handshake()` of `connection<https_socket>`. -/
def do_handshake (c : base_connection) : Option base_connection :=
  some (c.async async_op.handshake)

/-- The member `do_read()`, that is `do_read_real()` of the specialisation. -/
def do_read (c : base_connection) : Option base_connection :=
  if c.https then
    if c.has_handshake_ then do_read_some c else do_handshake c
  else do_read_some c

/-- The member `run()`. -/
def run (c : base_connection) : Option base_connection :=
  do_read c

/-- The completion handler of `do_handshake()`. -/
def do_handshake_completion (code : Bool) (c : base_connection) : Option base_connection :=
  if code then close c else do_read_some { c with has_handshake_ := true }

/-- The member `make_reply_str(status)`. -/
def make_reply_str (e : collaborators) (status : Nat) : String :=
  ((("".append "HTTP/1.1 ").append (Nat.repr status)).append " ").append
    (e.get_message_for_status status)

/-- The member `reply(buffers, is_close)`: one asynchronous write. -/
def reply (buffers : String) (is_close : Bool) (c : base_connection) : Option base_connection :=
  some (c.async (async_op.write buffers is_close))

/-- The member `reply_error(status)`. -/
def reply_error (e : collaborators) (status : Nat) (c : base_connection) :
    Option base_connection :=
  reply (make_reply_str e status) false c

/-- The member `do_read_ws_header()`: an exact read of the two header bytes. -/
def do_read_ws_header (c : base_connection) : Option base_connection :=
  match c.ws_helper_ with
  | none => none
  | some _ => some (c.async async_op.read_ws_header)

/-- The bytes `do_send_ws_frame()` writes to the stream buffer for one frame.  The first
byte is the low byte of `static_cast<std::uint8_t>(frame.opcode) | 0x80` (the first byte in
memory on a little-endian host); `size` is a `std::size_t` of 64 bits. -/
def serialize_ws_frame (frame : ws_frame) : List Nat :=
  let opcode := (frame.opcode % 256) ||| 0x80
  let size := frame.payload.length
  let head :=
    if size < 126 then
      [opcode] ++ [0 ||| (size % 256)]
    else if size ≤ 65535 then
      [opcode] ++ [0 ||| 0x7e] ++ to_be_bytes 2 (size % 2 ^ 16)
    else
      [opcode] ++ [0 ||| 0x7f] ++ to_be_bytes 8 (size % 2 ^ 64)
  if size > 0 then head ++ frame.payload else head

/-- The member `do_write_ws()`: one asynchronous write of the stream buffer. -/
def do_write_ws (c : base_connection) : Option base_connection :=
  match c.ws_helper_ with
  | none => none
  | some h => some (c.async (async_op.write_ws h.buffer_))

/-- The member `do_send_ws_frame()`: serialise the front of the queue into the stream
buffer and write it. -/
def do_send_ws_frame (c : base_connection) : Option base_connection :=
  match c.ws_helper_ with
  | none => none
  | some h =>
    match h.write_queue_ with
    | [] => none
    | frame :: _ =>
      do_write_ws { c with ws_helper_ := some { h with buffer_ := h.buffer_ ++ serialize_ws_frame frame } }

/-- The member `send_ws_frame(frame)`. -/
def send_ws_frame (frame : ws_frame) (c : base_connection) : Option base_connection :=
  match c.ws_helper_ with
  | none => none
  | some h =>
    let c1 := { c with ws_helper_ := some { h with write_queue_ := h.write_queue_ ++ [frame] } }
    let c1 := c1.emit (effect.enqueue frame)
    if (h.write_queue_ ++ [frame]).length = 1 ∧ c.ws_handshake_ = true then
      do_send_ws_frame c1
    else some c1

/-- The completion handler of `do_write_ws()`.  The composed write has consumed
`bytes_transferred` bytes of the stream buffer before the handler runs. -/
def do_write_ws_completion (code : Bool) (bytes_transferred : Nat) (c : base_connection) :
    Option base_connection :=
  match c.ws_helper_ with
  | none => if code then close c else none
  | some h =>
    let c1 := { c with ws_helper_ := some { h with buffer_ := h.buffer_.drop bytes_transferred } }
    if code then close c1
    else
      match h.write_queue_ with
      | [] => none
      | _ :: rest =>
        let c2 := { c with ws_helper_ := some { h with buffer_ := h.buffer_.drop bytes_transferred,
                                                       write_queue_ := rest } }
        if rest ≠ [] then do_send_ws_frame c2 else some c2

/-- The member `reply_ws_pong()`. -/
def reply_ws_pong (c : base_connection) : Option base_connection :=
  send_ws_frame { opcode := ws_opcode.pong, payload := [] } c

/-- The member `handle_ws()`: dispatch on the opcode of the frame just read. -/
def handle_ws (c : base_connection) : Option base_connection :=
  match c.ws_helper_ with
  | none => none
  | some h =>
    let reader := h.ws_reader_
    if reader.opcode = ws_opcode.continuation then
      do_read_ws_header { c with ws_helper_ := some { h with ws_reader_ := { reader with last_fin := false } } }
    else if reader.opcode = ws_opcode.text ∨ reader.opcode = ws_opcode.binary then
      if reader.fin then
        let reader1 := { reader with last_fin := true }
        let c1 := { c with ws_helper_ := some { h with ws_reader_ := reader1 } }
        let c2 := c1.emit (effect.emit_msg h.websocket_ reader1.payload_buffer)
        let reader2 := { reader1 with payload_buffer := [] }
        do_read_ws_header { c2 with ws_helper_ := some { h with ws_reader_ := reader2 } }
      else
        do_read_ws_header { c with ws_helper_ := some { h with ws_reader_ := { reader with last_fin := false } } }
    else if reader.opcode = ws_opcode.close then
      close c
    else if reader.opcode = ws_opcode.ping then
      (reply_ws_pong c).bind do_read_ws_header
    else
      do_read_ws_header c

/-- The unmasking loop of the payload completion handler:
`for (i = i0; i < i0 + n; ++i) payload_buffer[i] ^= mask[i % 4]`, called with `i0 = 0`. -/
def unmask_loop (mask : List Nat) : Nat → Nat → List Nat → List Nat
  | _, 0, buf => buf
  | i, n + 1, buf =>
    unmask_loop mask (i + 1) n (buf.set i ((buf.getD i 0) ^^^ (mask.getD (i % 4) 0)))

/-- What the payload completion handler does to the reader before it calls `handle_ws()`:
the bytes received land at `payload_buffer.data() + offset`, then the loop unmasks. -/
def read_ws_payload_data (offset : Nat) (data : List Nat) (r : ws_reader) : ws_reader :=
  let buf := write_at r.payload_buffer offset data
  { r with payload_buffer := if r.has_mask then unmask_loop r.mask 0 r.length buf else buf }

/-- The member `do_read_ws_payload()`: grow the accumulation buffer and read exactly
`reader.length` bytes behind what it held.  The new size `reader.length + length` is
computed in 64 bits.  `none` where `resize` throws (the size exceeds `max_size`), and
where the sum has wrapped around, so that the region the read is given,
`reader.length` bytes from `data() + length`, does not lie inside the resized buffer. -/
def do_read_ws_payload (c : base_connection) : Option base_connection :=
  match c.ws_helper_ with
  | none => none
  | some h =>
    let reader := h.ws_reader_
    let length := reader.payload_buffer.length
    let size := (reader.length + length) % 2 ^ 64
    if size > max_size then none
    else if size < length + reader.length then none
    else
      let buf := resize size reader.payload_buffer
      let c1 := { c with ws_helper_ := some { h with ws_reader_ := { reader with payload_buffer := buf } } }
      some (c1.async (async_op.read_ws_payload length reader.length))

/-- The completion handler of `do_read_ws_payload()`. -/
def do_read_ws_payload_completion (offset : Nat) (code : Bool) (data : List Nat)
    (c : base_connection) : Option base_connection :=
  if code then close c
  else
    match c.ws_helper_ with
    | none => none
    | some h =>
      let reader := read_ws_payload_data offset data h.ws_reader_
      handle_ws { c with ws_helper_ := some { h with ws_reader_ := reader } }

/-- What the length-and-mask completion handler does to the reader before it calls
`do_read_ws_payload()`. -/
def read_ws_length_and_mask_data (bytes : Nat) (data : List Nat) (r : ws_reader) : ws_reader :=
  let buf := write_at r.length_mask_buffer 0 data
  let r := { r with length_mask_buffer := buf }
  if bytes = 2 then
    let r := { r with length := from_be_bytes (buf.take 2) }
    if r.has_mask then { r with mask := (buf.drop 2).take 4 } else r
  else if bytes = 8 then
    let r := { r with length := from_be_bytes (buf.take 8) }
    if r.has_mask then { r with mask := (buf.drop 8).take 4 } else r
  else
    if r.has_mask then { r with mask := buf.take 4 } else r

/-- The completion handler of the read started by `do_read_ws_length_and_mask(bytes)`. -/
def do_read_ws_length_and_mask_completion (bytes : Nat) (code : Bool) (data : List Nat)
    (c : base_connection) : Option base_connection :=
  if code then close c
  else
    match c.ws_helper_ with
    | none => none
    | some h =>
      let reader := read_ws_length_and_mask_data bytes data h.ws_reader_
      do_read_ws_payload { c with ws_helper_ := some { h with ws_reader_ := reader } }

/-- The member `do_read_ws_length_and_mask(bytes)`. -/
def do_read_ws_length_and_mask (bytes : Nat) (c : base_connection) : Option base_connection :=
  match c.ws_helper_ with
  | none => none
  | some h =>
    let reader := h.ws_reader_
    let length := bytes + (if reader.has_mask then 4 else 0)
    if length = 0 then handle_ws c
    else
      let buf := resize length reader.length_mask_buffer
      let c1 := { c with ws_helper_ := some { h with ws_reader_ := { reader with length_mask_buffer := buf } } }
      some (c1.async (async_op.read_ws_length_and_mask bytes length))

/-- What the header completion handler does to the reader: decode the two header bytes. -/
def read_ws_header_data (data : List Nat) (r : ws_reader) : ws_reader :=
  let header := write_at r.header 0 data
  { r with
    header := header
    fin := (header.getD 0 0 &&& 0x80) != 0
    opcode := header.getD 0 0 &&& 0xf
    has_mask := (header.getD 1 0 &&& 0x80) != 0
    length := header.getD 1 0 &&& 0x7f }

/-- The completion handler of `do_read_ws_header()`. -/
def do_read_ws_header_completion (code : Bool) (data : List Nat) (c : base_connection) :
    Option base_connection :=
  if code then close c
  else
    match c.ws_helper_ with
    | none => none
    | some h =>
      let reader := read_ws_header_data data h.ws_reader_
      let c1 := { c with ws_helper_ := some { h with ws_reader_ := reader } }
      if reader.length = 126 then do_read_ws_length_and_mask 2 c1
      else if reader.length = 127 then do_read_ws_length_and_mask 8 c1
      else do_read_ws_length_and_mask 0 c1

/-- The completion handler of the write started by `reply(buffers, is_close)`. -/
def reply_completion (is_close : Bool) (code : Bool) (c : base_connection) :
    Option base_connection :=
  if code || is_close then close c
  else
    match c.ws_helper_ with
    | some h =>
      let c1 := { c with ws_handshake_ := true }
      do_read_ws_header (c1.emit (effect.emit_open h.websocket_ c1.ws_handshake_))
    | none =>
      do_read ({ c with parser_contexts := [] }.emit effect.parser_reset)

/-- The local variables of `handle_and_reply()` that live across its loop, and the
position the loop has reached in `parser_.contexts()`. -/
structure dispatch_state where
  conn : base_connection
  buffers : String := ""
  is_close : Bool := false
  index : Nat := 0

/-- One iteration of the loop of `handle_and_reply()`.  The loop variable is a reference
to the context at position `index` of `parser_.contexts()`: what the handler does to the
context and the three copies into its response are written into the parser's context in
place. -/
def handle_and_reply_body (e : collaborators) (st : dispatch_state) (ctx : context) :
    dispatch_state :=
  let c := st.conn.emit (effect.handler_call ctx)
  let ctx := e.handler ctx
  let req := ctx.req
  let res := ctx.res
  let res := { res with major_version := req.major_version }
  let res := { res with minor_version := req.minor_version }
  let res := { res with keepalive := req.keepalive }
  let ctx := { ctx with res := res }
  let c := { c with parser_contexts := c.parser_contexts.set st.index ctx }
  let c :=
    if req.websocket ∧ c.ws_helper_ = none then
      { c with ws_helper_ := some { websocket_ := ctx.websocket_ptr } }
    else c
  let is_close := st.is_close || !res.keepalive
  let buffers := if !res.is_stream then st.buffers.append (e.to_string res) else st.buffers
  { conn := c, buffers := buffers, is_close := is_close, index := st.index + 1 }

/-- The member `handle_and_reply()`. -/
def handle_and_reply (e : collaborators) (c : base_connection) : Option base_connection :=
  let st := c.parser_contexts.foldl (handle_and_reply_body e) { conn := c }
  if st.buffers ≠ "" then reply st.buffers st.is_close st.conn else some st.conn

/-- The completion handler of `do_read_some()`.  The parser is external: `parse_code` is
what `parser_.parse(bytes_transferred)` returned and `contexts` is what
`parser_.contexts()` holds afterwards. -/
def do_read_some_completion (e : collaborators) (code : Bool) (parse_code : Int)
    (contexts : List context) (c : base_connection) : Option base_connection :=
  if code then close c
  else
    let c := { c with parser_contexts := contexts }
    if parse_code = 0 then handle_and_reply e c
    else if parse_code = -1 then reply_error e 400 c
    else do_read c

/-! ## The transport -/

/-- What the transport reports when it completes an operation, and the calls that arrive
from outside the connection. -/
inductive event where
  | read_some_done (code : Bool) (parse_code : Int) (contexts : List context)
  | write_done (code : Bool)
  | read_ws_done (code : Bool) (data : List Nat)
  | write_ws_done (code : Bool) (bytes_transferred : Nat)
  | handshake_done (code : Bool)
  | send (frame : ws_frame)
  | close_call

/-- Does the event complete this operation?  A successful exact read delivers exactly the
bytes asked for, a successful write has transferred all its bytes. -/
def completes : event → async_op → Bool
  | event.read_some_done _ _ _, async_op.read_some => true
  | event.write_done _, async_op.write _ _ => true
  | event.read_ws_done code data, async_op.read_ws_header => code || data.length == 2
  | event.read_ws_done code data, async_op.read_ws_length_and_mask _ length =>
    code || data.length == length
  | event.read_ws_done code data, async_op.read_ws_payload _ length =>
    code || data.length == length
  | event.write_ws_done code n, async_op.write_ws data => code || n == data.length
  | event.handshake_done _, async_op.handshake => true
  | _, _ => false

/-- Run the completion handler of `op` with what the event reports. -/
def complete (e : collaborators) : event → async_op → base_connection → Option base_connection
  | event.read_some_done code parse_code contexts, async_op.read_some, c =>
    do_read_some_completion e code parse_code contexts c
  | event.write_done code, async_op.write _ is_close, c => reply_completion is_close code c
  | event.read_ws_done code data, async_op.read_ws_header, c =>
    do_read_ws_header_completion code data c
  | event.read_ws_done code data, async_op.read_ws_length_and_mask bytes _, c =>
    do_read_ws_length_and_mask_completion bytes code data c
  | event.read_ws_done code data, async_op.read_ws_payload offset _, c =>
    do_read_ws_payload_completion offset code data c
  | event.write_ws_done code n, async_op.write_ws _, c => do_write_ws_completion code n c
  | event.handshake_done code, async_op.handshake, c => do_handshake_completion code c
  | _, _, _ => none

/-- Take the oldest operation in flight that satisfies `p` out of the list. -/
def take_op (p : async_op → Bool) : List async_op → Option (async_op × List async_op)
  | [] => none
  | op :: ops =>
    if p op then some (op, ops)
    else
      match take_op p ops with
      | none => none
      | some (found, others) => some (found, op :: others)

/-- One atomic step of the connection: a call from outside, or the completion of the
oldest operation in flight that the event matches (`none`: there is no such operation). -/
def step (e : collaborators) (ev : event) (c : base_connection) : Option base_connection :=
  match ev with
  | event.send frame => send_ws_frame frame c
  | event.close_call => close c
  | _ =>
    match take_op (completes ev) c.pending with
    | none => none
    | some (op, others) => complete e ev op { c with pending := others }

/-- Run a schedule of events. -/
def steps (e : collaborators) : List event → base_connection → Option base_connection
  | [], c => some c
  | ev :: evs, c => (step e ev c).bind (steps e evs)

/-- The number of bytes the exact read in flight waits for, if there is one. -/
def ws_read_size : List async_op → Option Nat
  | [] => none
  | async_op.read_ws_header :: _ => some 2
  | async_op.read_ws_length_and_mask _ length :: _ => some length
  | async_op.read_ws_payload _ length :: _ => some length
  | _ :: ops => ws_read_size ops

/-- Feed an inbound byte stream to the frame reader: as long as the stream holds the
bytes the exact read in flight waits for, the read completes with them (at most `fuel`
completions).  Returns the connection and the bytes not yet consumed. -/
def ws_feed (e : collaborators) : Nat → base_connection → List Nat →
    Option (base_connection × List Nat)
  | 0, c, stream => some (c, stream)
  | fuel + 1, c, stream =>
    match ws_read_size c.pending with
    | none => some (c, stream)
    | some n =>
      if stream.length < n then some (c, stream)
      else
        match step e (event.read_ws_done false (stream.take n)) c with
        | none => none
        | some c1 => ws_feed e fuel c1 (stream.drop n)

/-- The message events delivered to the session consumer, in order. -/
def messages (t : List effect) : List (List Nat) :=
  t.filterMap (fun a => match a with
    | effect.emit_msg _ payload => some payload
    | _ => none)

/-- The frames put into the outbound queue, in order. -/
def enqueues (t : List effect) : List ws_frame :=
  t.filterMap (fun a => match a with
    | effect.enqueue frame => some frame
    | _ => none)

/-- The byte sequences handed to asynchronous WebSocket writes, in order: what goes onto
the wire. -/
def ws_writes (t : List effect) : List (List Nat) :=
  t.filterMap (fun a => match a with
    | effect.start (async_op.write_ws data) => some data
    | _ => none)

/-- Is the operation a WebSocket write? -/
def is_write_ws : async_op → Bool
  | async_op.write_ws _ => true
  | _ => false

/-- The WebSocket writes in flight. -/
def ws_writes_pending (c : base_connection) : List async_op :=
  c.pending.filter is_write_ws

/-- The number of WebSocket writes in flight. -/
def ws_writes_in_flight (c : base_connection) : Nat :=
  (ws_writes_pending c).length

/-- The frames of the `send` calls of a schedule, in call order. -/
def sends (sched : List event) : List ws_frame :=
  sched.filterMap (fun ev => match ev with
    | event.send frame => some frame
    | _ => none)

/-- The events of the outbound side: a `send` call or the completion of a WebSocket
write. -/
def outbound_event : event → Bool
  | event.send _ => true
  | event.write_ws_done _ _ => true
  | _ => false

/-- A frame reader that waits for a header, with nothing else in flight: the state right
after the upgrade, with accumulation buffer `acc` and outbound queue `queue`. -/
def ws_session (acc : List Nat) (queue : List ws_frame) : base_connection :=
  { ws_handshake_ := true
    ws_helper_ := some { ws_reader_ := { payload_buffer := acc }, write_queue_ := queue }
    pending := [async_op.read_ws_header] }

/-- Collaborators for concrete runs: the handler leaves the context as the parser made it,
a response serialises to its content, every status has the reason phrase `Bad Request`. -/
def plain : collaborators :=
  { handler := fun ctx => ctx
    to_string := fun res => res.content
    get_message_for_status := fun _ => "Bad Request" }

/-- The length field of the claimed wire encoding, in the spec's words: the literal length
below 126, or 126 and the length as 2 bytes big-endian up to 65535, or 127 and the length
as 8 bytes big-endian. -/
def spec_length_field (n : Nat) : List Nat :=
  if n < 126 then [n]
  else if n ≤ 65535 then [126, n / 256, n % 256]
  else [127, n / 2 ^ 56 % 256, n / 2 ^ 48 % 256, n / 2 ^ 40 % 256, n / 2 ^ 32 % 256,
        n / 2 ^ 24 % 256, n / 2 ^ 16 % 256, n / 2 ^ 8 % 256, n % 256]

/-- The claimed wire encoding of an outbound frame, in the spec's words: the byte
`0x80 | opcode`, the length field, the payload verbatim. -/
def spec_wire_encoding (o : Nat) (p : List Nat) : List Nat :=
  [0x80 ||| o] ++ spec_length_field p.length ++ p

/-- A binary frame with a payload of 70000 zero bytes. -/
def frame_70000 : ws_frame := { opcode := ws_opcode.binary, payload := List.replicate 70000 0 }

/-- A session helper whose outbound queue holds the 70000-byte frame. -/
def helper_70000 : ws_helper := { write_queue_ := [frame_70000] }

/-- An upgraded connection about to send the 70000-byte frame. -/
def session_70000 : base_connection := { ws_handshake_ := true, ws_helper_ := some helper_70000 }

/-- The response of a context at the point where `handle_and_reply()` serialises it: what
the handler made of it, with protocol version and persistence copied from the request. -/
def processed_response (e : collaborators) (ctx : context) : response :=
  { (e.handler ctx).res with
    major_version := (e.handler ctx).req.major_version
    minor_version := (e.handler ctx).req.minor_version
    keepalive := (e.handler ctx).req.keepalive }

/-- The context the parser holds after `handle_and_reply()` has visited it: what the
handler made of it, with the processed response written into it in place. -/
def processed_context (e : collaborators) (ctx : context) : context :=
  { (e.handler ctx) with res := processed_response e ctx }

/-- Concatenation of strings, in order. -/
def concat : List String → String
  | [] => ""
  | s :: t => s ++ concat t

/-- The serialised responses of a batch that are not streaming, concatenated in arrival
order. -/
def send_buffer (e : collaborators) (ctxs : List context) : String :=
  concat ((((ctxs.map (processed_response e)).filter (fun res => !res.is_stream))).map e.to_string)

/-- The session after a batch: an existing one stays; otherwise the first context whose
request carries upgrade intent creates it and binds its websocket object. -/
def session_after (e : collaborators) (ws : Option ws_helper) (ctxs : List context) :
    Option ws_helper :=
  match ws with
  | some h => some h
  | none =>
    match ctxs.find? (fun ctx => (e.handler ctx).req.websocket) with
    | some ctx => some { websocket_ := (e.handler ctx).websocket_ptr }
    | none => none

/-- The HTTP reading state: the read is the only operation in flight, no session exists,
and a TLS connection has completed its handshake. -/
def http_reading (c : base_connection) : Prop :=
  c.pending = [async_op.read_some] ∧ c.ws_helper_ = none ∧ c.ws_handshake_ = false ∧
    (c.https = true → c.has_handshake_ = true)

/-- A plain HTTP connection in the reading state. -/
def reading : base_connection := { pending := [async_op.read_some] }

/-- Three pipelined keep-alive requests whose responses serialise to `A`, `B`, `C`. -/
def three_requests : List context :=
  [{ res := { content := "A" } }, { res := { content := "B" } }, { res := { content := "C" } }]

/-- A batch whose first request declines persistence and whose second does not. -/
def decline_then_keep : List context :=
  [{ req := { keepalive := false }, res := { content := "A" } }, { res := { content := "B" } }]

/-- The invariant of the outbound side, relative to the trace `t0` and the queue `q0` of
the state the run started from; `t` is the trace since then.  The frames enqueued so far
are `done ++ write_queue_`, and either (idle) nothing is in flight, the stream buffer is
empty and the writes so far were the frames of `done`; or (writing) exactly one write is in
flight, of the serialised front frame; or (stopped) a write of the front frame was started
and has failed, and nothing is in flight. -/
def outbound_inv (t0 : List effect) (q0 : List ws_frame) (c : base_connection)
    (t : List effect) : Prop :=
  ∃ h done, c.ws_helper_ = some h ∧ c.trace = t0 ++ t ∧
    q0 ++ enqueues t = done ++ h.write_queue_ ∧
    ((ws_writes_pending c = [] ∧ h.buffer_ = [] ∧
        ws_writes t = done.map serialize_ws_frame) ∨
     (∃ f rest, h.write_queue_ = f :: rest ∧
        ws_writes_pending c = [async_op.write_ws (serialize_ws_frame f)] ∧
        h.buffer_ = serialize_ws_frame f ∧
        ws_writes t = (done ++ [f]).map serialize_ws_frame) ∨
     (∃ f rest, h.write_queue_ = f :: rest ∧ ws_writes_pending c = [] ∧
        ws_writes t = (done ++ [f]).map serialize_ws_frame))

/-- A schedule of the outbound side: three `send` calls interleaved with the completions
of the first two writes. -/
def outbound_schedule : List event :=
  [event.send { opcode := ws_opcode.text, payload := [7] },
   event.send { opcode := ws_opcode.binary, payload := [] },
   event.write_ws_done false 3,
   event.send { opcode := ws_opcode.pong, payload := [] },
   event.write_ws_done false 2]

/-- The connection after `outbound_schedule`, started from `ws_session [] []`. -/
def outbound_final : base_connection :=
  { ws_handshake_ := true
    ws_helper_ := some { buffer_ := [138, 0], write_queue_ := [{ opcode := 10, payload := [] }] }
    pending := [async_op.read_ws_header, async_op.write_ws [138, 0]]
    trace := [effect.enqueue { opcode := 1, payload := [7] },
              effect.start (async_op.write_ws [129, 1, 7]),
              effect.enqueue { opcode := 2, payload := [] },
              effect.start (async_op.write_ws [130, 0]),
              effect.enqueue { opcode := 10, payload := [] },
              effect.start (async_op.write_ws [138, 0])] }

/-- The session helper of a connection that has just read a ping frame while a text frame
waits in the outbound queue. -/
def ping_helper : ws_helper :=
  { ws_reader_ := { fin := true, opcode := ws_opcode.ping },
    write_queue_ := [{ opcode := ws_opcode.text, payload := [7] }] }

/-- A connection that has just read a ping frame. -/
def ping_received : base_connection :=
  { ws_handshake_ := true, ws_helper_ := some ping_helper }

/-- Is the operation one of the WebSocket session (a frame read or a frame write)? -/
def is_ws_op : async_op → Bool
  | async_op.read_ws_header => true
  | async_op.read_ws_length_and_mask _ _ => true
  | async_op.read_ws_payload _ _ => true
  | async_op.write_ws _ => true
  | _ => false

/-- Only operations of the WebSocket session are in flight (or none at all). -/
def ws_only (c : base_connection) : Prop :=
  ∀ op ∈ c.pending, is_ws_op op = true

/-- The connection `c1` has what `c` has in flight, and WebSocket operations started
since. -/
def ws_started (c c1 : base_connection) : Prop :=
  ∃ l, c1.pending = c.pending ++ l ∧ ∀ op ∈ l, is_ws_op op = true

/-- The TLS handshake is the only operation in flight. -/
def tls_handshaking (c : base_connection) : Prop :=
  c.pending = [async_op.handshake] ∧ c.https = true ∧ c.has_handshake_ = false ∧
    c.ws_helper_ = none ∧ c.ws_handshake_ = false

/-- The HTTP writing state: the write of a batch is the only operation in flight. -/
def http_writing (c : base_connection) : Prop :=
  (∃ buffers is_close, c.pending = [async_op.write buffers is_close]) ∧
    c.ws_handshake_ = false ∧ (c.https = true → c.has_handshake_ = true)

/-- The phases of a connection. -/
def phase_inv (c : base_connection) : Prop :=
  tls_handshaking c ∨ http_reading c ∨ http_writing c ∨ ws_only c

/-- A freshly accepted connection, before `run()`. -/
def accepted (https : Bool) : base_connection :=
  { https := https }

/-- The states a connection can reach: `run()` on a freshly accepted connection, then any
schedule of events. -/
def reachable (e : collaborators) (c : base_connection) : Prop :=
  ∃ https sched c0, run (accepted https) = some c0 ∧ steps e sched c0 = some c

/-- Masking as the spec words it: byte `i` of the payload is XORed with `mask[i mod 4]`,
`i` counted from `i0` at the first byte. -/
def xor_mask (mask : List Nat) : Nat → List Nat → List Nat
  | _, [] => []
  | i, b :: t => (b ^^^ mask.getD (i % 4) 0) :: xor_mask mask (i + 1) t

/-- A connection whose reader has just read a close frame: nothing is in flight. -/
def close_received : base_connection :=
  { ws_handshake_ := true
    ws_helper_ := some { websocket_ := 5, ws_reader_ := { fin := true, opcode := ws_opcode.close } } }

/-- The session helper of `close_received`. -/
def close_received_helper : ws_helper :=
  { websocket_ := 5, ws_reader_ := { fin := true, opcode := ws_opcode.close } }

/-- Call `close()` `n` times in a row. -/
def close_times : Nat → base_connection → Option base_connection
  | 0, c => some c
  | n + 1, c => (close c).bind (close_times n)

/-- The close-lifecycle events delivered to session consumers, in order (each named by the
websocket object it went to). -/
def close_events (t : List effect) : List Nat :=
  t.filterMap (fun a => match a with
    | effect.emit_close websocket _ => some websocket
    | _ => none)

/-- The data members of the connection and what is in flight, without the history of
actions. -/
def base_connection.members (c : base_connection) : base_connection :=
  { c with trace := [] }

/-- Dispatch a sequence of batches on one connection: `handle_and_reply()` once per batch
of ready contexts, in order. -/
def dispatch_batches (e : collaborators) : List (List context) → base_connection →
    Option base_connection
  | [], c => some c
  | batch :: batches, c =>
    (handle_and_reply e { c with parser_contexts := batch }).bind (dispatch_batches e batches)

/-- Two pipelined upgrade requests after a plain one; their websocket objects are 7 and 9. -/
def two_upgrades : List (List context) :=
  [[{ res := { content := "A" } }],
   [{ req := { websocket := true }, res := { content := "B" }, websocket_ptr := 7 },
    { req := { websocket := true }, res := { content := "C" }, websocket_ptr := 9 }]]

/-- A keep-alive request with upgrade intent, its response `S` not streaming, websocket
object 7. -/
def upgrade_request : context :=
  { req := { websocket := true }, res := { content := "S" }, websocket_ptr := 7 }

/-- Does the event report a transport error? -/
def event_error : event → Bool
  | event.read_some_done code _ _ => code
  | event.write_done code => code
  | event.read_ws_done code _ => code
  | event.write_ws_done code _ => code
  | event.handshake_done code => code
  | _ => false

/-- The connection as the completion handler finds it: the composed stream-buffer write
has consumed the bytes it transferred; every other operation leaves the members alone. -/
def at_completion (ev : event) (c : base_connection) : base_connection :=
  match ev, c.ws_helper_ with
  | event.write_ws_done _ n, some h =>
    { c with ws_helper_ := some { h with buffer_ := h.buffer_.drop n } }
  | _, _ => c

/-- The outbound queue of the session, if there is one. -/
def write_queue (c : base_connection) : Option (List ws_frame) :=
  c.ws_helper_.map (fun h => h.write_queue_)

/-- The reader state of the session, if there is one. -/
def reader (c : base_connection) : Option ws_reader :=
  c.ws_helper_.map (fun h => h.ws_reader_)

/-- An active session with a payload read and a frame write in flight and a second frame
queued. -/
def busy_session : base_connection :=
  { ws_handshake_ := true
    ws_helper_ := some { websocket_ := 5, buffer_ := [129, 1, 7],
                         ws_reader_ := { fin := true, opcode := ws_opcode.text, length := 2,
                                         payload_buffer := [0, 0] },
                         write_queue_ := [{ opcode := ws_opcode.text, payload := [7] },
                                          { opcode := ws_opcode.pong, payload := [] }] }
    pending := [async_op.read_ws_payload 0 2, async_op.write_ws [129, 1, 7]] }

/-- The number of extended-length bytes a header announces, in the spec's words: 2 when
the base length (low 7 bits of byte 1) is 126, 8 when it is 127, otherwise 0. -/
def extension_size (b1 : Nat) : Nat :=
  if b1 % 128 = 126 then 2 else if b1 % 128 = 127 then 8 else 0

/-- The number of mask-key bytes a header announces, in the spec's words: 4 when bit 7 of
byte 1 is set, otherwise 0. -/
def mask_size (b1 : Nat) : Nat :=
  if b1.testBit 7 then 4 else 0

/-- The reader after the header of a frame has been decoded, in the spec's words: `b0`,
`b1` are the two header bytes, `ext` the extended-length bytes and `key` the mask-key
bytes that follow them. -/
def decoded_header (b0 b1 : Nat) (ext key : List Nat) (r : ws_reader) : ws_reader :=
  { r with
    header := b0 :: b1 :: r.header.drop 2
    fin := b0.testBit 7
    opcode := b0 % 16
    has_mask := b1.testBit 7
    length := if extension_size b1 = 0 then b1 % 128 else from_be_bytes ext
    length_mask_buffer :=
      if extension_size b1 + mask_size b1 = 0 then r.length_mask_buffer else ext ++ key
    mask := if b1.testBit 7 then key else r.mask }

/-- A run in which a frame is sent between the dispatch of an upgrade request and the
completion of its response write, and another one after the handshake has completed. -/
def early_send_schedule : List event :=
  [event.read_some_done false 0 [upgrade_request],
   event.send { opcode := ws_opcode.text, payload := [7] },
   event.write_done false,
   event.send { opcode := ws_opcode.text, payload := [8] }]

/-- The lifecycle events (open, close) delivered to session consumers, in order. -/
def lifecycle (t : List effect) : List effect :=
  t.filter (fun a => match a with
    | effect.emit_open _ _ => true
    | effect.emit_close _ _ => true
    | _ => false)

/-- The websocket object the session is bound to, if there is a session. -/
def bound_websocket (c : base_connection) : Option Nat :=
  c.ws_helper_.map (fun h => h.websocket_)

/-- Between `c` and `c1` no lifecycle event was delivered, the handshake flag did not
change and the session stayed bound to the same websocket object. -/
def quiet (c c1 : base_connection) : Prop :=
  c1.ws_handshake_ = c.ws_handshake_ ∧ bound_websocket c1 = bound_websocket c ∧
    lifecycle c1.trace = lifecycle c.trace

/-- Between `c` and `c1` an active session was closed: the flag went from set to clear and
exactly one close event was delivered, to the session's websocket object. -/
def closed_session (c c1 : base_connection) : Prop :=
  c.ws_handshake_ = true ∧ c1.ws_handshake_ = false ∧ bound_websocket c1 = bound_websocket c ∧
    ∃ h, c.ws_helper_ = some h ∧
      lifecycle c1.trace = lifecycle c.trace ++ [effect.emit_close h.websocket_ true]

/-- What a function of the WebSocket session does to the lifecycle. -/
def ws_life (c c1 : base_connection) : Prop :=
  quiet c c1 ∨ closed_session c c1

/-- The lifecycle invariant: no event yet and the flag clear; or one open event, the flag
set and the session bound to the websocket object the event went to; or an open event
followed by a close event to the same object, and the flag clear. -/
def lifecycle_inv (c : base_connection) : Prop :=
  (lifecycle c.trace = [] ∧ c.ws_handshake_ = false) ∨
  (∃ w, lifecycle c.trace = [effect.emit_open w true] ∧ c.ws_handshake_ = true ∧
    bound_websocket c = some w) ∨
  (∃ w, lifecycle c.trace = [effect.emit_open w true, effect.emit_close w true] ∧
    c.ws_handshake_ = false)

/-- Before the upgrade: TLS handshake, HTTP reading or HTTP writing. -/
def pre_ws (c : base_connection) : Prop :=
  tls_handshaking c ∨ http_reading c ∨ http_writing c

/-- A run with an upgrade, a text frame and a close frame (all masked with key 0). -/
def session_schedule : List event :=
  [event.read_some_done false 0 [upgrade_request],
   event.write_done false,
   event.read_ws_done false [0x81, 0x81],
   event.read_ws_done false [0, 0, 0, 0],
   event.read_ws_done false [104],
   event.read_ws_done false [0x88, 0x80],
   event.read_ws_done false [0, 0, 0, 0],
   event.read_ws_done false [],
   event.close_call]

/-! ## Theorems -/

/-- C1 (round trip), evaluated where the code departs from it: the reader is fed the three
bytes `do_send_ws_frame` writes for a binary frame with the one-byte payload `[7]`.  The
header completion finds no extension and no mask to read and calls `handle_ws()` without a
payload read: a message event with empty payload is delivered, the accumulation buffer
never holds `[7]`, and the payload byte is left in the stream for the next header read. -/
theorem C1_roundtrip_loses_short_unmasked_payload (e : collaborators) :
    serialize_ws_frame { opcode := ws_opcode.binary, payload := [7] } = [0x82, 1, 7] ∧
    ∃ c, ws_feed e 3 (ws_session [] []) [0x82, 1, 7] = some (c, [7]) ∧
      messages c.trace = [[]] ∧
      c.trace = [effect.emit_msg 0 [], effect.start async_op.read_ws_header] ∧
      c.pending = [async_op.read_ws_header] := by
  refine ⟨rfl, _, rfl, rfl, rfl, rfl⟩

/-- C2 (unmasked text frame `"hello"`, fin set), evaluated on the code: after the two
header bytes no payload byte is read; one message event with EMPTY payload is delivered
and the header read is re-issued at the first payload byte, so `h`,`e` (0x68, 0x65) are
decoded as the header of a close frame and the connection closes, `llo` left unread. -/
theorem C2_unmasked_hello_is_not_delivered (e : collaborators) :
    ∃ c, ws_feed e 8 (ws_session [] [])
        (serialize_ws_frame { opcode := ws_opcode.text, payload := [104, 101, 108, 108, 111] })
          = some (c, [108, 108, 111]) ∧
      messages c.trace = [[]] ∧
      c.trace = [effect.emit_msg 0 [], effect.start async_op.read_ws_header,
                 effect.emit_close 0 true, effect.socket_shutdown, effect.socket_close] ∧
      c.pending = [] := by
  refine ⟨_, rfl, rfl, rfl, rfl⟩

/-- C3 (fragmentation), evaluated on the code: `"hel"` as a text frame with fin clear, then
`"lo"` as a continuation frame with fin set (both masked, key 0).  Both payloads are read
and accumulated to `"hello"`, but `handle_ws()` never delivers a message event for a
continuation frame: no event is emitted and the reader waits for the next header. -/
theorem C3_final_continuation_emits_nothing (e : collaborators) :
    ∃ c, ws_feed e 8 (ws_session [] [])
        ([0x01, 0x83, 0, 0, 0, 0, 104, 101, 108] ++ [0x80, 0x82, 0, 0, 0, 0, 108, 111])
          = some (c, []) ∧
      messages c.trace = [] ∧
      c.pending = [async_op.read_ws_header] ∧
      c.ws_helper_.map (fun h => h.ws_reader_.payload_buffer)
        = some [104, 101, 108, 108, 111] := by
  refine ⟨_, rfl, rfl, rfl, rfl⟩

/-- C4 (masking with earlier fragments accumulated), evaluated on the code: the buffer
holds `a = [1, 2, 3]`; a masked continuation frame with key `m = [1, 2, 3, 4]` carries
`p = [104, 101]` as `w = [105, 103]`.  The loop unmasks the buffer positions `0, 1`, not
the positions `3, 4` where the frame's bytes landed: the buffer becomes `[0, 0, 3, 105, 103]`
instead of `a ++ p = [1, 2, 3, 104, 101]`. -/
theorem C4_unmask_hits_accumulated_bytes (e : collaborators) :
    [104 ^^^ 1, 101 ^^^ 2] = [105, 103] ∧
    ∃ c, ws_feed e 3 (ws_session [1, 2, 3] []) [0x00, 0x82, 1, 2, 3, 4, 105, 103]
          = some (c, []) ∧
      c.ws_helper_.map (fun h => h.ws_reader_.payload_buffer) = some [0, 0, 3, 105, 103] ∧
      c.trace = [effect.start (async_op.read_ws_length_and_mask 0 4),
                 effect.start (async_op.read_ws_payload 3 2),
                 effect.start async_op.read_ws_header] := by
  refine ⟨rfl, _, rfl, rfl, rfl⟩

/-- C5 (protocol parse error), evaluated on the code: a connection in the HTTP reading
state whose parser reports `-1` writes the synthesised 400 response with close-after-write
FALSE; when that write completes without error the parser is reset and the read is
re-issued, and `close()` is not called. -/
theorem C5_parse_error_reply_keeps_connection (e : collaborators) :
    steps e [event.read_some_done false (-1) []] { pending := [async_op.read_some] }
      = some { pending := [async_op.write (make_reply_str e 400) false]
               trace := [effect.start (async_op.write (make_reply_str e 400) false)] } ∧
    steps e [event.read_some_done false (-1) [], event.write_done false]
        { pending := [async_op.read_some] }
      = some { pending := [async_op.read_some]
               trace := [effect.start (async_op.write (make_reply_str e 400) false),
                         effect.parser_reset, effect.start async_op.read_some] } := by
  exact ⟨rfl, rfl⟩

/-! ### The frame reader beyond the evaluated inputs -/

/-- For every unmasked frame header whose base length is at most 125, whatever that
length is, the header completion runs `handle_ws()` at once on the decoded header: no
length-and-mask read and no payload read is started, and the accumulation buffer is the
one from before the frame. -/
theorem short_unmasked_header_skips_payload (c : base_connection) (h : ws_helper)
    (b0 b1 : Nat) (hc : c.ws_helper_ = some h) (hb : b1 < 126) :
    (read_ws_header_data [b0, b1] h.ws_reader_).length = b1 ∧
    (read_ws_header_data [b0, b1] h.ws_reader_).has_mask = false ∧
    (read_ws_header_data [b0, b1] h.ws_reader_).payload_buffer = h.ws_reader_.payload_buffer ∧
    do_read_ws_header_completion false [b0, b1] c
      = handle_ws { c with ws_helper_ := some { h with
          ws_reader_ := read_ws_header_data [b0, b1] h.ws_reader_ } } := by
  have h1 : b1 &&& 0x7f = b1 := by interval_cases b1 <;> rfl
  have h2 : (b1 &&& 0x80 != 0) = false := by interval_cases b1 <;> rfl
  have hlen : (read_ws_header_data [b0, b1] h.ws_reader_).length = b1 := by
    simp [read_ws_header_data, write_at, h1]
  have hmask : (read_ws_header_data [b0, b1] h.ws_reader_).has_mask = false := by
    simp only [read_ws_header_data, write_at, List.take_zero, List.nil_append, List.cons_append,
      List.getD_cons_zero, List.getD_cons_succ, h2]
  refine ⟨hlen, hmask, rfl, ?_⟩
  simp only [do_read_ws_header_completion, Bool.false_eq_true, if_false, hc, hlen,
    do_read_ws_length_and_mask, hmask]
  have h126 : ¬ b1 = 126 := by omega
  have h127 : ¬ b1 = 127 := by omega
  simp [h126, h127]

/-- For every reader state, `handle_ws()` on a continuation frame, with fin set or not,
delivers no message event and keeps the accumulation buffer; it only clears `last_fin`
and starts the next header read. -/
theorem handle_ws_continuation (c : base_connection) (h : ws_helper)
    (hc : c.ws_helper_ = some h) (hop : h.ws_reader_.opcode = ws_opcode.continuation) :
    handle_ws c = some ({ c with ws_helper_ := some { h with
        ws_reader_ := { h.ws_reader_ with last_fin := false } } }.async
      async_op.read_ws_header) := by
  simp [handle_ws, hc, hop, do_read_ws_header]

theorem unmask_loop_length (mask : List Nat) (n : Nat) :
    ∀ (i : Nat) (buf : List Nat), (unmask_loop mask i n buf).length = buf.length := by
  induction n with
  | zero => intro i buf; rfl
  | succ n ih => intro i buf; simp [unmask_loop, ih]

/-- The unmasking loop changes exactly the buffer positions `i0 .. i0 + n - 1`. -/
theorem unmask_loop_getD (mask : List Nat) (n : Nat) :
    ∀ (i0 : Nat) (buf : List Nat) (j : Nat), i0 + n ≤ buf.length →
      (unmask_loop mask i0 n buf).getD j 0
        = if i0 ≤ j ∧ j < i0 + n then buf.getD j 0 ^^^ mask.getD (j % 4) 0 else buf.getD j 0 := by
  induction n with
  | zero =>
    intro i0 buf j _
    have : ¬ (i0 ≤ j ∧ j < i0 + 0) := by omega
    rw [if_neg this]
    rfl
  | succ n ih =>
    intro i0 buf j hlen
    simp only [unmask_loop]
    rw [ih (i0 + 1) _ j (by simp; omega)]
    by_cases hj : j = i0
    · subst hj
      have h1 : ¬ (j + 1 ≤ j ∧ j < j + 1 + n) := by omega
      have h2 : j ≤ j ∧ j < j + (n + 1) := by omega
      rw [if_neg h1, if_pos h2]
      simp [List.getD_eq_getElem?_getD, List.getElem?_set]
      have : j < buf.length := by omega
      simp [this]
    · have hset : (buf.set i0 (buf.getD i0 0 ^^^ mask.getD (i0 % 4) 0)).getD j 0 = buf.getD j 0 := by
        have hne : ¬ i0 = j := fun h => hj h.symm
        simp [List.getD_eq_getElem?_getD, List.getElem?_set, hne]
      rw [hset]
      by_cases hr : i0 ≤ j ∧ j < i0 + (n + 1)
      · have : i0 + 1 ≤ j ∧ j < i0 + 1 + n := by omega
        rw [if_pos this, if_pos hr]
      · have : ¬ (i0 + 1 ≤ j ∧ j < i0 + 1 + n) := by omega
        rw [if_neg this, if_neg hr]

theorem xor_mask_length (mask : List Nat) (p : List Nat) :
    ∀ i, (xor_mask mask i p).length = p.length := by
  induction p with
  | nil => intro i; rfl
  | cons b t ih => intro i; simp [xor_mask, ih]

theorem xor_mask_getD (mask : List Nat) (p : List Nat) :
    ∀ (i j : Nat), j < p.length →
      (xor_mask mask i p).getD j 0 = p.getD j 0 ^^^ mask.getD ((i + j) % 4) 0 := by
  induction p with
  | nil => intro i j hj; simp at hj
  | cons b t ih =>
    intro i j hj
    cases j with
    | zero => simp [xor_mask]
    | succ j =>
      simp only [xor_mask, List.getD_cons_succ]
      rw [ih (i + 1) j (by simpa using hj)]
      congr 3
      omega

theorem eq_of_getD_eq (l1 l2 : List Nat) (hl : l1.length = l2.length)
    (h : ∀ j, j < l1.length → l1.getD j 0 = l2.getD j 0) : l1 = l2 := by
  apply List.ext_getElem hl
  intro j h1 h2
  have := h j h1
  rwa [List.getD_eq_getElem _ _ h1, List.getD_eq_getElem _ _ h2] at this

/-- The payload phase of a masked frame, for every prior content of the accumulation
buffer: after `do_read_ws_payload()` has grown the buffer and the completion handler has
stored the received bytes and run the loop, the buffer is `payload_buffer ++ data` with
its FIRST `length` positions XORed with the key. -/
theorem read_ws_payload_data_masked (r : ws_reader) (data : List Nat)
    (hm : r.has_mask = true) (hl : data.length = r.length) (j : Nat) :
    ((read_ws_payload_data r.payload_buffer.length data
        { r with payload_buffer :=
            resize (r.length + r.payload_buffer.length) r.payload_buffer }).payload_buffer).getD j 0
      = if j < r.length then (r.payload_buffer ++ data).getD j 0 ^^^ r.mask.getD (j % 4) 0
        else (r.payload_buffer ++ data).getD j 0 := by
  have hw : write_at (resize (r.length + r.payload_buffer.length) r.payload_buffer)
      r.payload_buffer.length data = r.payload_buffer ++ data := by
    have hb : resize (r.length + r.payload_buffer.length) r.payload_buffer
        = r.payload_buffer ++ List.replicate r.length 0 := by
      simp [resize]
    rw [hb]
    simp [write_at, hl]
  simp only [read_ws_payload_data, hm, if_true, hw]
  rw [unmask_loop_getD r.mask r.length 0 _ j (by simp; omega)]
  simp

/-- With an empty accumulation buffer the payload phase recovers the payload `p` of a
masked frame from its wire bytes `p[i] xor mask[i mod 4]`. -/
theorem read_ws_payload_data_unmasks_first_fragment (r : ws_reader) (p : List Nat)
    (hm : r.has_mask = true) (hl : p.length = r.length) (ha : r.payload_buffer = []) :
    (read_ws_payload_data r.payload_buffer.length (xor_mask r.mask 0 p)
        { r with payload_buffer :=
            resize (r.length + r.payload_buffer.length) r.payload_buffer }).payload_buffer
      = p := by
  have hlen : (xor_mask r.mask 0 p).length = r.length := by rw [xor_mask_length, hl]
  apply eq_of_getD_eq
  · simp [read_ws_payload_data, hm, unmask_loop_length, write_at, resize, ha, hlen, hl]
  · intro j hj
    rw [read_ws_payload_data_masked r _ hm hlen j]
    have hj' : j < p.length := by
      simpa [read_ws_payload_data, hm, unmask_loop_length, write_at, resize, ha, hlen, hl] using hj
    rw [if_pos (by omega), ha, List.nil_append, xor_mask_getD r.mask p 0 j hj']
    simp [Nat.xor_assoc]

/-! ### Outbound wire encoding -/

theorem to_be_bytes_two (n : Nat) (h : n ≤ 65535) :
    to_be_bytes 2 (n % 2 ^ 16) = [n / 256, n % 256] := by
  have h1 : n % 2 ^ 16 = n := Nat.mod_eq_of_lt (by omega)
  simp only [to_be_bytes, h1]
  have : n / 256 < 256 := by omega
  simp [Nat.mod_eq_of_lt this]

theorem to_be_bytes_eight (n : Nat) :
    to_be_bytes 8 (n % 2 ^ 64) =
      [n / 2 ^ 56 % 256, n / 2 ^ 48 % 256, n / 2 ^ 40 % 256, n / 2 ^ 32 % 256,
        n / 2 ^ 24 % 256, n / 2 ^ 16 % 256, n / 2 ^ 8 % 256, n % 256] := by
  simp only [to_be_bytes]
  norm_num
  omega

theorem serialize_ws_frame_eq (frame : ws_frame) (ho : frame.opcode < 256) :
    serialize_ws_frame frame = spec_wire_encoding frame.opcode frame.payload := by
  unfold serialize_ws_frame spec_wire_encoding spec_length_field
  have h1 : frame.opcode % 256 ||| 0x80 = 0x80 ||| frame.opcode := by
    rw [Nat.mod_eq_of_lt ho, Nat.lor_comm]
  simp only [h1, Nat.zero_or]
  by_cases hn : frame.payload.length < 126
  · have h2 : frame.payload.length % 256 = frame.payload.length := Nat.mod_eq_of_lt (by omega)
    simp only [hn, if_true, h2]
    by_cases h0 : frame.payload.length > 0
    · simp [h0]
    · have : frame.payload = [] := List.length_eq_zero.mp (by omega)
      simp [this]
  · have h0 : frame.payload.length > 0 := by omega
    by_cases h16 : frame.payload.length ≤ 65535
    · simp only [hn, h16, h0, if_true, if_false, to_be_bytes_two _ h16]
      simp
    · simp only [hn, h16, h0, if_true, if_false, to_be_bytes_eight]
      simp

theorem spec_length_field_head (n : Nat) :
    ∃ b t, spec_length_field n = b :: t ∧ b &&& 0x80 = 0 := by
  unfold spec_length_field
  by_cases hn : n < 126
  · refine ⟨n, [], by simp [hn], ?_⟩
    interval_cases n <;> rfl
  · by_cases h16 : n ≤ 65535
    · exact ⟨126, [n / 256, n % 256], by simp only [hn, h16, if_true, if_false], rfl⟩
    · exact ⟨127, [n / 2 ^ 56 % 256, n / 2 ^ 48 % 256, n / 2 ^ 40 % 256, n / 2 ^ 32 % 256,
        n / 2 ^ 24 % 256, n / 2 ^ 16 % 256, n / 2 ^ 8 % 256, n % 256],
        by simp only [hn, h16, if_false], rfl⟩

/-- C6 (wire encoding of an outbound frame): for the frame at the front of the queue, with
opcode `o` (one byte) and payload `p` of size `n`, `do_send_ws_frame` appends exactly
`[0x80 | o] ++ L ++ p` to the write buffer and starts one write of the buffer, where `L`
is `[n]`, `[126, n as 2 bytes big-endian]` or `[127, n as 8 bytes big-endian]`; bit 7 of
the second byte is clear and nothing but opcode byte, length field and payload is written
(no mask key). -/
theorem C6_do_send_ws_frame_wire_encoding (c : base_connection) (h : ws_helper)
    (frame : ws_frame) (queue : List ws_frame)
    (hc : c.ws_helper_ = some h) (hq : h.write_queue_ = frame :: queue)
    (ho : frame.opcode < 256) :
    do_send_ws_frame c
      = some ({ c with ws_helper_ := some { h with
                  buffer_ := h.buffer_ ++ spec_wire_encoding frame.opcode frame.payload } }.async
              (async_op.write_ws (h.buffer_ ++ spec_wire_encoding frame.opcode frame.payload))) ∧
    (serialize_ws_frame frame).getD 1 0 &&& 0x80 = 0 ∧
    (serialize_ws_frame frame).length
      = 1 + (spec_length_field frame.payload.length).length + frame.payload.length := by
  have hs := serialize_ws_frame_eq frame ho
  refine ⟨?_, ?_, ?_⟩
  · simp only [do_send_ws_frame, hc, hq, do_write_ws, hs]
  · rw [hs]
    obtain ⟨b, t, hbt, hb⟩ := spec_length_field_head frame.payload.length
    simpa [spec_wire_encoding, hbt] using hb
  · rw [hs]
    simp [spec_wire_encoding]
    omega

/-- C6 at a 70000-byte payload: the length field is 127 followed by the 8-byte big-endian
value 70000 (`0x011170`). -/
theorem C6_witness_70000 :
    (session_70000.ws_helper_ = some helper_70000 ∧
      helper_70000.write_queue_ = [frame_70000] ∧ frame_70000.opcode < 256) ∧
    spec_length_field frame_70000.payload.length = [127, 0, 0, 0, 0, 0, 1, 17, 112] ∧
    (do_send_ws_frame session_70000
      = some ({ session_70000 with ws_helper_ := some { helper_70000 with
                  buffer_ := helper_70000.buffer_ ++
                    spec_wire_encoding frame_70000.opcode frame_70000.payload } }.async
              (async_op.write_ws (helper_70000.buffer_ ++
                spec_wire_encoding frame_70000.opcode frame_70000.payload))) ∧
    (serialize_ws_frame frame_70000).getD 1 0 &&& 0x80 = 0 ∧
    (serialize_ws_frame frame_70000).length
      = 1 + (spec_length_field frame_70000.payload.length).length
          + frame_70000.payload.length) :=
  ⟨⟨rfl, rfl, by decide⟩,
    by rw [show frame_70000.payload.length = 70000 from List.length_replicate _ _]; decide,
    C6_do_send_ws_frame_wire_encoding session_70000 helper_70000 frame_70000 [] rfl rfl
      (by decide)⟩

/-! ### Encoder and reader together -/

theorem opcode_byte_decode (o : Nat) (ho : o < 16) :
    ((0x80 ||| o) &&& 0x80 != 0) = true ∧ (0x80 ||| o) &&& 0xf = o := by
  interval_cases o <;> exact ⟨rfl, rfl⟩

theorem from_be_bytes_to_be_bytes_two (n : Nat) :
    from_be_bytes [n / 256, n % 256] = n := by
  simp [from_be_bytes]
  omega

theorem from_be_bytes_to_be_bytes_eight (n : Nat) (h : n < 2 ^ 64) :
    from_be_bytes [n / 2 ^ 56 % 256, n / 2 ^ 48 % 256, n / 2 ^ 40 % 256, n / 2 ^ 32 % 256,
      n / 2 ^ 24 % 256, n / 2 ^ 16 % 256, n / 2 ^ 8 % 256, n % 256] = n := by
  simp [from_be_bytes]
  omega

/-- The completion of the header read when the header announces an extended length and no
mask (`b1` is 126 or 127): the length-and-mask read of 2 or 8 bytes is started. -/
theorem step_header_extended (e : collaborators) (c : base_connection) (h : ws_helper)
    (b0 b1 k : Nat) (hp : c.pending = [async_op.read_ws_header]) (hc : c.ws_helper_ = some h)
    (hb : (b1 = 126 ∧ k = 2) ∨ (b1 = 127 ∧ k = 8)) :
    step e (event.read_ws_done false [b0, b1]) c
      = some ({ c with
                pending := []
                ws_helper_ := some { h with ws_reader_ :=
                  { read_ws_header_data [b0, b1] h.ws_reader_ with length_mask_buffer := resize k h.ws_reader_.length_mask_buffer } } }.async
          (async_op.read_ws_length_and_mask k k)) := by
  have h1 : (126 : Nat) &&& 127 = 126 := by decide
  have h2 : (126 : Nat) &&& 128 = 0 := by decide
  have h3 : (127 : Nat) &&& 127 = 127 := by decide
  have h4 : (127 : Nat) &&& 128 = 0 := by decide
  rcases hb with ⟨rfl, rfl⟩ | ⟨rfl, rfl⟩ <;>
    simp [step, hp, take_op, completes, complete, do_read_ws_header_completion, hc,
      read_ws_header_data, write_at, do_read_ws_length_and_mask, h1, h2, h3, h4]

/-- The completion of the length-and-mask read of an unmasked frame: the extended length
is decoded and, the grown buffer being of a size `resize` accepts, the payload read is
started behind the accumulated bytes. -/
theorem step_length_unmasked (e : collaborators) (c : base_connection) (h : ws_helper)
    (k : Nat) (data : List Nat) (hp : c.pending = [async_op.read_ws_length_and_mask k k])
    (hc : c.ws_helper_ = some h) (hm : h.ws_reader_.has_mask = false)
    (hl : h.ws_reader_.length_mask_buffer.length = k) (hd : data.length = k)
    (hk : k = 2 ∨ k = 8)
    (hsz : from_be_bytes data + h.ws_reader_.payload_buffer.length ≤ max_size) :
    step e (event.read_ws_done false data) c
      = some ({ c with
                pending := []
                ws_helper_ := some { h with ws_reader_ :=
                  { h.ws_reader_ with length_mask_buffer := data, length := from_be_bytes data, payload_buffer := resize (from_be_bytes data + h.ws_reader_.payload_buffer.length) h.ws_reader_.payload_buffer } } }.async
          (async_op.read_ws_payload h.ws_reader_.payload_buffer.length (from_be_bytes data))) := by
  have hw : write_at h.ws_reader_.length_mask_buffer 0 data = data := by
    simp [write_at, hd, hl]
  have ht : data.take k = data := List.take_of_length_le (by omega)
  have hmod : (from_be_bytes data + h.ws_reader_.payload_buffer.length) % 18446744073709551616
      = from_be_bytes data + h.ws_reader_.payload_buffer.length :=
    Nat.mod_eq_of_lt (by unfold max_size at hsz; omega)
  have h2 : h.ws_reader_.payload_buffer.length + from_be_bytes data
      ≤ from_be_bytes data + h.ws_reader_.payload_buffer.length := by omega
  rcases hk with rfl | rfl <;>
    simp [step, hp, take_op, completes, complete, do_read_ws_length_and_mask_completion, hc,
      read_ws_length_and_mask_data, hw, hm, do_read_ws_payload, hd, ht, hmod, hsz, h2]

/-- The completion of the payload read: the bytes are stored (and unmasked), then
`handle_ws()` runs. -/
theorem step_payload (e : collaborators) (c : base_connection) (h : ws_helper)
    (offset n : Nat) (data : List Nat) (hp : c.pending = [async_op.read_ws_payload offset n])
    (hc : c.ws_helper_ = some h) (hd : data.length = n) :
    step e (event.read_ws_done false data) c
      = handle_ws { c with
          pending := []
          ws_helper_ := some { h with ws_reader_ := read_ws_payload_data offset data h.ws_reader_ } } := by
  simp [step, hp, take_op, completes, complete, do_read_ws_payload_completion, hc, hd]

theorem resize_length (n : Nat) (buf : List Nat) : (resize n buf).length = n := by
  simp [resize]
  omega

theorem header_extended_facts (e : collaborators) (c : base_connection) (h : ws_helper)
    (b0 b1 k : Nat) (hp : c.pending = [async_op.read_ws_header]) (hc : c.ws_helper_ = some h)
    (hb : (b1 = 126 ∧ k = 2) ∨ (b1 = 127 ∧ k = 8)) :
    ∃ c1 h1, step e (event.read_ws_done false [b0, b1]) c = some c1 ∧
      c1.pending = [async_op.read_ws_length_and_mask k k] ∧ c1.ws_helper_ = some h1 ∧
      h1.ws_reader_.fin = ((b0 &&& 0x80) != 0) ∧ h1.ws_reader_.opcode = b0 &&& 0xf ∧
      h1.ws_reader_.has_mask = false ∧
      h1.ws_reader_.payload_buffer = h.ws_reader_.payload_buffer ∧
      h1.ws_reader_.length_mask_buffer.length = k := by
  refine ⟨_, _, step_header_extended e c h b0 b1 k hp hc hb, rfl, rfl, ?_, ?_, ?_, rfl, ?_⟩
  · simp [read_ws_header_data, write_at]
  · simp [read_ws_header_data, write_at]
  · simp only [read_ws_header_data, write_at, List.take_zero, List.nil_append, List.cons_append,
      List.getD_cons_zero, List.getD_cons_succ]
    rcases hb with ⟨rfl, _⟩ | ⟨rfl, _⟩ <;> decide
  · simp [resize_length]

theorem length_unmasked_facts (e : collaborators) (c : base_connection) (h : ws_helper)
    (k : Nat) (data : List Nat) (hp : c.pending = [async_op.read_ws_length_and_mask k k])
    (hc : c.ws_helper_ = some h) (hm : h.ws_reader_.has_mask = false)
    (hl : h.ws_reader_.length_mask_buffer.length = k) (hd : data.length = k)
    (hk : k = 2 ∨ k = 8)
    (hsz : from_be_bytes data + h.ws_reader_.payload_buffer.length ≤ max_size) :
    ∃ c2 h2, step e (event.read_ws_done false data) c = some c2 ∧
      c2.pending = [async_op.read_ws_payload h.ws_reader_.payload_buffer.length
        (from_be_bytes data)] ∧
      c2.ws_helper_ = some h2 ∧
      h2.ws_reader_.fin = h.ws_reader_.fin ∧ h2.ws_reader_.opcode = h.ws_reader_.opcode ∧
      h2.ws_reader_.has_mask = false ∧ h2.ws_reader_.length = from_be_bytes data ∧
      h2.ws_reader_.payload_buffer
        = resize (from_be_bytes data + h.ws_reader_.payload_buffer.length)
            h.ws_reader_.payload_buffer :=
  ⟨_, _, step_length_unmasked e c h k data hp hc hm hl hd hk hsz, rfl, rfl, rfl, rfl, hm, rfl,
    rfl⟩

theorem ws_feed_succ (e : collaborators) (fuel : Nat) (c c1 : base_connection)
    (stream : List Nat) (n : Nat) (hs : ws_read_size c.pending = some n)
    (hlen : n ≤ stream.length)
    (hstep : step e (event.read_ws_done false (stream.take n)) c = some c1) :
    ws_feed e (fuel + 1) c stream = ws_feed e fuel c1 (stream.drop n) := by
  simp only [ws_feed, hs]
  rw [if_neg (by omega), hstep]

/-- The frames the skipped payload read does not touch: for every outbound frame with a
payload of at least 126 bytes, the reader fed with the bytes `do_send_ws_frame` writes
(from an empty accumulation buffer) runs `handle_ws()` on a reader that holds fin set, the
same opcode, mask absent, the payload size as declared length and the payload as
accumulated bytes, having consumed exactly the encoded bytes. -/
theorem roundtrip_extended_length (e : collaborators) (c : base_connection) (h : ws_helper)
    (f : ws_frame) (rest : List Nat)
    (hp : c.pending = [async_op.read_ws_header]) (hc : c.ws_helper_ = some h)
    (hacc : h.ws_reader_.payload_buffer = [])
    (ho : f.opcode < 16) (hn : 126 ≤ f.payload.length) (hmax : f.payload.length ≤ max_size) :
    ∃ c3 h3, c3.ws_helper_ = some h3 ∧ c3.pending = [] ∧
      h3.ws_reader_.fin = true ∧ h3.ws_reader_.opcode = f.opcode ∧
      h3.ws_reader_.has_mask = false ∧ h3.ws_reader_.length = f.payload.length ∧
      h3.ws_reader_.payload_buffer = f.payload ∧
      ws_feed e 3 c (serialize_ws_frame f ++ rest) = (handle_ws c3).map (fun c4 => (c4, rest)) := by
  obtain ⟨hfin, hop⟩ := opcode_byte_decode f.opcode ho
  have h64 : f.payload.length < 2 ^ 64 := by unfold max_size at hmax; omega
  -- the length field
  obtain ⟨b1, k, lenbytes, hb, hk, hlb, hval, hL⟩ :
      ∃ b1 k lenbytes, ((b1 = 126 ∧ k = 2) ∨ (b1 = 127 ∧ k = 8)) ∧ (k = 2 ∨ k = 8) ∧
        lenbytes.length = k ∧ from_be_bytes lenbytes = f.payload.length ∧
        spec_length_field f.payload.length = b1 :: lenbytes := by
    by_cases h16 : f.payload.length ≤ 65535
    · refine ⟨126, 2, [f.payload.length / 256, f.payload.length % 256], Or.inl ⟨rfl, rfl⟩,
        Or.inl rfl, rfl, from_be_bytes_to_be_bytes_two _, ?_⟩
      have : ¬ f.payload.length < 126 := by omega
      simp [spec_length_field, h16, this]
    · refine ⟨127, 8, [f.payload.length / 2 ^ 56 % 256, f.payload.length / 2 ^ 48 % 256,
          f.payload.length / 2 ^ 40 % 256, f.payload.length / 2 ^ 32 % 256,
          f.payload.length / 2 ^ 24 % 256, f.payload.length / 2 ^ 16 % 256,
          f.payload.length / 2 ^ 8 % 256, f.payload.length % 256],
        Or.inr ⟨rfl, rfl⟩, Or.inr rfl, rfl, from_be_bytes_to_be_bytes_eight _ h64, ?_⟩
      have : ¬ f.payload.length < 126 := by omega
      simp [spec_length_field, h16, this]
  have hser : serialize_ws_frame f ++ rest
      = (0x80 ||| f.opcode) :: b1 :: (lenbytes ++ (f.payload ++ rest)) := by
    rw [serialize_ws_frame_eq f (by omega)]
    simp [spec_wire_encoding, hL]
  rw [hser]
  -- header
  obtain ⟨c1, h1, hs1, hp1, hc1, hfin1, hop1, hm1, hpb1, hlm1⟩ :=
    header_extended_facts e c h (0x80 ||| f.opcode) b1 k hp hc hb
  rw [ws_feed_succ e 2 c c1 ((0x80 ||| f.opcode) :: b1 :: (lenbytes ++ (f.payload ++ rest))) 2
    (by rw [hp]; rfl) (by simp) (by simpa using hs1)]
  simp only [List.drop_succ_cons, List.drop_zero]
  -- length
  obtain ⟨c2, h2, hs2, hp2, hc2, hfin2, hop2, hm2, hlen2, hpb2⟩ :=
    length_unmasked_facts e c1 h1 k lenbytes hp1 hc1 hm1 hlm1 hlb hk
      (by rw [hval, hpb1, hacc]; simpa using hmax)
  rw [ws_feed_succ e 1 c1 c2 (lenbytes ++ (f.payload ++ rest)) k (by rw [hp1]; rfl)
    (by simp [hlb]) (by rw [List.take_left' hlb]; exact hs2)]
  rw [List.drop_left' hlb]
  -- payload
  rw [hpb1, hacc, hval] at hp2
  rw [hpb1, hacc, hval] at hpb2
  rw [hval] at hlen2
  simp only [List.length_nil, Nat.add_zero] at hp2 hpb2
  simp only [ws_feed, hp2, ws_read_size]
  rw [if_neg (by simp)]
  rw [List.take_left' rfl, List.drop_left' rfl]
  rw [step_payload e c2 h2 _ f.payload.length f.payload hp2 hc2 rfl]
  refine ⟨{ c2 with
      pending := []
      ws_helper_ := some { h2 with ws_reader_ := read_ws_payload_data 0 f.payload h2.ws_reader_ } },
    _, rfl, rfl, ?_, ?_, ?_, ?_, ?_, ?_⟩
  · simp [read_ws_payload_data, hfin2, hfin1, hfin]
  · simp [read_ws_payload_data, hop2, hop1, hop]
  · simp [read_ws_payload_data, hm2]
  · simp [read_ws_payload_data, hlen2]
  · simp [read_ws_payload_data, hm2, hpb2, resize, write_at]
  · generalize handle_ws _ = r
    cases r <;> rfl

/-- The frames the skipped payload read does touch, and the empty frame: for every
outbound frame with a payload of at most 125 bytes, the reader fed with the bytes
`do_send_ws_frame` writes decodes the two header bytes (fin set, same opcode, mask absent,
declared length the payload size) and runs `handle_ws()` at once: the accumulation buffer
is the one from before the frame and the payload bytes are still in the stream.  For the
empty payload that is the round trip; for 1 to 125 bytes the payload is lost. -/
theorem short_frame_payload_not_read (e : collaborators) (c : base_connection) (h : ws_helper)
    (f : ws_frame) (rest : List Nat)
    (hp : c.pending = [async_op.read_ws_header]) (hc : c.ws_helper_ = some h)
    (ho : f.opcode < 16) (hn : f.payload.length < 126) :
    ∃ c1 h1, c1.ws_helper_ = some h1 ∧ c1.pending = [] ∧
      h1.ws_reader_.fin = true ∧ h1.ws_reader_.opcode = f.opcode ∧
      h1.ws_reader_.has_mask = false ∧ h1.ws_reader_.length = f.payload.length ∧
      h1.ws_reader_.payload_buffer = h.ws_reader_.payload_buffer ∧
      ws_feed e 1 c (serialize_ws_frame f ++ rest)
        = (handle_ws c1).map (fun c2 => (c2, f.payload ++ rest)) := by
  obtain ⟨hfin, hop⟩ := opcode_byte_decode f.opcode ho
  have hser : serialize_ws_frame f ++ rest
      = (0x80 ||| f.opcode) :: f.payload.length :: (f.payload ++ rest) := by
    rw [serialize_ws_frame_eq f (by omega)]
    simp [spec_wire_encoding, spec_length_field, hn]
  obtain ⟨hlen, hmask, hbuf, hcompl⟩ :=
    short_unmasked_header_skips_payload { c with pending := [] } h (0x80 ||| f.opcode)
      f.payload.length hc hn
  have hstep : step e (event.read_ws_done false [0x80 ||| f.opcode, f.payload.length]) c
      = do_read_ws_header_completion false [0x80 ||| f.opcode, f.payload.length]
          { c with pending := [] } := by
    simp [step, hp, take_op, completes, complete]
  refine ⟨{ c with
      pending := []
      ws_helper_ := some { h with ws_reader_ := read_ws_header_data [0x80 ||| f.opcode, f.payload.length] h.ws_reader_ } },
    _, rfl, rfl, ?_, ?_, hmask, hlen, hbuf, ?_⟩
  · simp [read_ws_header_data, write_at, hfin]
  · simp [read_ws_header_data, write_at, hop]
  · rw [hser]
    simp only [ws_feed, hp, ws_read_size, List.length_cons]
    rw [if_neg (by omega)]
    simp only [List.take_succ_cons, List.take_zero, List.drop_succ_cons, List.drop_zero]
    rw [hstep, hcompl]
    generalize handle_ws _ = r
    cases r <;> rfl

/-! ### The HTTP dispatch and write steps -/

theorem set_at_length (pre t : List context) (a x : context) :
    (pre ++ a :: t).set pre.length x = pre ++ x :: t := by
  induction pre with
  | nil => rfl
  | cons b pre ih => simp [ih]

/-- One iteration of the loop of `handle_and_reply()` in closed form. -/
theorem handle_and_reply_body_eq (e : collaborators) (st : dispatch_state) (ctx : context) :
    handle_and_reply_body e st ctx =
      { conn := { st.conn with
                  trace := st.conn.trace ++ [effect.handler_call ctx]
                  parser_contexts := st.conn.parser_contexts.set st.index (processed_context e ctx)
                  ws_helper_ := session_after e st.conn.ws_helper_ [ctx] }
        buffers := st.buffers ++ send_buffer e [ctx]
        is_close := st.is_close || !(e.handler ctx).req.keepalive
        index := st.index + 1 } := by
  cases st with
  | mk conn buffers is_close index =>
    simp only [handle_and_reply_body, base_connection.emit, session_after, send_buffer,
      List.map_cons, List.map_nil, List.find?_cons, List.find?_nil, processed_response,
      processed_context, List.filter_cons, List.filter_nil]
    cases hw : conn.ws_helper_ <;> cases hk : (e.handler ctx).req.websocket <;>
      cases hs : (e.handler ctx).res.is_stream <;>
      simp [hw, hk, hs, concat]
    all_goals rfl

/-- The loop of `handle_and_reply()` in closed form, from position `pre.length` on. -/
theorem handle_and_reply_fold (e : collaborators) (ctxs : List context) :
    ∀ (st : dispatch_state) (pre : List context),
      st.conn.parser_contexts = pre ++ ctxs → st.index = pre.length →
      ctxs.foldl (handle_and_reply_body e) st =
        { conn := { st.conn with
                    trace := st.conn.trace ++ ctxs.map effect.handler_call
                    parser_contexts := pre ++ ctxs.map (processed_context e)
                    ws_helper_ := session_after e st.conn.ws_helper_ ctxs }
          buffers := st.buffers ++ send_buffer e ctxs
          is_close := st.is_close || ctxs.any (fun ctx => !(e.handler ctx).req.keepalive)
          index := st.index + ctxs.length } := by
  induction ctxs with
  | nil =>
    intro st pre hpc hi
    cases st with
    | mk conn buffers is_close index =>
      simp only at hpc
      cases h : conn.ws_helper_ <;> simp [session_after, send_buffer, concat, h, ← hpc]
      all_goals (cases conn; simp_all)
  | cons ctx t ih =>
    intro st pre hpc hi
    rw [List.foldl_cons, handle_and_reply_body_eq,
      ih _ (pre ++ [processed_context e ctx])
        (by simp [hpc, hi, set_at_length]) (by simp [hi])]
    cases st with
    | mk conn buffers is_close index =>
      simp only [session_after, send_buffer, List.map_cons, List.any_cons, List.find?_cons,
        List.filter_cons, List.map_nil, List.find?_nil, List.filter_nil]
      cases hw : conn.ws_helper_ <;> cases hk : (e.handler ctx).req.websocket <;>
        cases hs : (processed_response e ctx).is_stream <;>
        simp [hw, hk, hs, concat, String.append_assoc, Bool.or_assoc, Nat.add_assoc,
          Nat.add_comm 1]

/-- The loop of `handle_and_reply()` over all contexts of the parser, in closed form. -/
theorem handle_and_reply_loop (e : collaborators) (c : base_connection) :
    c.parser_contexts.foldl (handle_and_reply_body e) { conn := c } =
      { conn := { c with
                  trace := c.trace ++ c.parser_contexts.map effect.handler_call
                  parser_contexts := c.parser_contexts.map (processed_context e)
                  ws_helper_ := session_after e c.ws_helper_ c.parser_contexts }
        buffers := send_buffer e c.parser_contexts
        is_close := c.parser_contexts.any (fun ctx => !(e.handler ctx).req.keepalive)
        index := c.parser_contexts.length } := by
  rw [handle_and_reply_fold e c.parser_contexts { conn := c } [] rfl rfl]
  simp

/-- The dispatch step in closed form: the handler is called once per context in arrival
order, each context holds its processed response afterwards, the session is created by
the first upgrade intent, and one write of the send buffer is started if the buffer is not
empty. -/
theorem dispatch_step (e : collaborators) (c : base_connection) (ctxs : List context)
    (hp : c.pending = [async_op.read_some]) :
    step e (event.read_some_done false 0 ctxs) c =
      if send_buffer e ctxs ≠ "" then
        some ({ c with
                pending := []
                parser_contexts := ctxs.map (processed_context e)
                trace := c.trace ++ ctxs.map effect.handler_call
                ws_helper_ := session_after e c.ws_helper_ ctxs }.async
          (async_op.write (send_buffer e ctxs)
            (ctxs.any (fun ctx => !(e.handler ctx).req.keepalive))))
      else
        some { c with
               pending := []
               parser_contexts := ctxs.map (processed_context e)
               trace := c.trace ++ ctxs.map effect.handler_call
               ws_helper_ := session_after e c.ws_helper_ ctxs } := by
  have hl := handle_and_reply_fold e ctxs
    { conn := { c with parser_contexts := ctxs, pending := [] } } [] rfl rfl
  simp only [step, hp, take_op, completes, complete, do_read_some_completion, handle_and_reply,
    reply]
  simp [hl]

/-- The completion of the HTTP write, when it is the only operation in flight. -/
theorem write_done_step (e : collaborators) (c : base_connection) (buffers : String)
    (is_close code : Bool) (hp : c.pending = [async_op.write buffers is_close]) :
    step e (event.write_done code) c = reply_completion is_close code { c with pending := [] } := by
  simp [step, hp, take_op, completes, complete]

/-! ### The phases of a connection -/

theorem ws_started_refl (c : base_connection) : ws_started c c :=
  ⟨[], by simp, by simp⟩

theorem ws_started_trans {c c1 c2 : base_connection} (h1 : ws_started c c1)
    (h2 : ws_started c1 c2) : ws_started c c2 := by
  obtain ⟨l1, hl1, hw1⟩ := h1
  obtain ⟨l2, hl2, hw2⟩ := h2
  refine ⟨l1 ++ l2, by rw [hl2, hl1, List.append_assoc], ?_⟩
  intro op hop
  rcases List.mem_append.mp hop with h | h
  · exact hw1 op h
  · exact hw2 op h

theorem ws_started_of_pending_eq {c c1 : base_connection} (h : c1.pending = c.pending) :
    ws_started c c1 :=
  ⟨[], by simp [h], by simp⟩

theorem ws_started_async (c : base_connection) (op : async_op) (h : is_ws_op op = true) :
    ws_started c (c.async op) :=
  ⟨[op], rfl, by simpa using h⟩

theorem ws_only_of_started {c c1 : base_connection} (h : ws_started c c1) (hc : ws_only c) :
    ws_only c1 := by
  obtain ⟨l, hl, hw⟩ := h
  intro op hop
  rw [hl] at hop
  rcases List.mem_append.mp hop with h | h
  · exact hc op h
  · exact hw op h

theorem close_pending {c c1 : base_connection} (h : close c = some c1) :
    c1.pending = c.pending := by
  unfold close at h
  split at h
  · split at h
    · simp at h
    · simp only [Option.some.injEq] at h
      subst h
      rfl
  · simp only [Option.some.injEq] at h
    subst h
    rfl

theorem close_started {c c1 : base_connection} (h : close c = some c1) : ws_started c c1 :=
  ws_started_of_pending_eq (close_pending h)

theorem do_read_ws_header_started {c c1 : base_connection} (h : do_read_ws_header c = some c1) :
    ws_started c c1 := by
  unfold do_read_ws_header at h
  split at h
  · simp at h
  · simp only [Option.some.injEq] at h
    subst h
    exact ws_started_async _ _ rfl

theorem do_send_ws_frame_started {c c1 : base_connection} (h : do_send_ws_frame c = some c1) :
    ws_started c c1 := by
  unfold do_send_ws_frame at h
  split at h
  · simp at h
  · split at h
    · simp at h
    · simp only [do_write_ws, Option.some.injEq] at h
      subst h
      exact ⟨[_], rfl, by simp [is_ws_op]⟩

theorem send_ws_frame_started {f : ws_frame} {c c1 : base_connection}
    (h : send_ws_frame f c = some c1) : ws_started c c1 := by
  unfold send_ws_frame at h
  split at h
  · simp at h
  · simp only at h
    split at h
    · exact ws_started_trans (by exact ws_started_of_pending_eq rfl) (do_send_ws_frame_started h)
    · simp only [Option.some.injEq] at h
      subst h
      exact ws_started_of_pending_eq rfl

theorem handle_ws_started {c c1 : base_connection} (h : handle_ws c = some c1) :
    ws_started c c1 := by
  unfold handle_ws at h
  split at h
  · simp at h
  · simp only at h
    split at h
    · exact ws_started_trans (by exact ws_started_of_pending_eq rfl) (do_read_ws_header_started h)
    · split at h
      · split at h
        · exact ws_started_trans (by exact ws_started_of_pending_eq rfl) (do_read_ws_header_started h)
        · exact ws_started_trans (by exact ws_started_of_pending_eq rfl) (do_read_ws_header_started h)
      · split at h
        · exact close_started h
        · split at h
          · cases hp : reply_ws_pong c with
            | none => simp [hp] at h
            | some c2 =>
              rw [hp] at h
              exact ws_started_trans (send_ws_frame_started hp) (do_read_ws_header_started h)
          · exact do_read_ws_header_started h

theorem do_read_ws_payload_started {c c1 : base_connection}
    (h : do_read_ws_payload c = some c1) : ws_started c c1 := by
  unfold do_read_ws_payload at h
  split at h
  · simp at h
  · simp only at h
    split at h
    · simp at h
    · split at h
      · simp at h
      · simp only [Option.some.injEq] at h
        subst h
        exact ⟨[_], rfl, by simp [is_ws_op]⟩

theorem do_read_ws_payload_completion_started {offset : Nat} {code : Bool} {data : List Nat}
    {c c1 : base_connection} (h : do_read_ws_payload_completion offset code data c = some c1) :
    ws_started c c1 := by
  unfold do_read_ws_payload_completion at h
  split at h
  · exact close_started h
  · split at h
    · simp at h
    · exact ws_started_trans (by exact ws_started_of_pending_eq rfl) (handle_ws_started h)

theorem do_read_ws_length_and_mask_completion_started {bytes : Nat} {code : Bool}
    {data : List Nat} {c c1 : base_connection}
    (h : do_read_ws_length_and_mask_completion bytes code data c = some c1) :
    ws_started c c1 := by
  unfold do_read_ws_length_and_mask_completion at h
  split at h
  · exact close_started h
  · split at h
    · simp at h
    · exact ws_started_trans (by exact ws_started_of_pending_eq rfl)
        (do_read_ws_payload_started h)

theorem do_read_ws_length_and_mask_started {bytes : Nat} {c c1 : base_connection}
    (h : do_read_ws_length_and_mask bytes c = some c1) : ws_started c c1 := by
  unfold do_read_ws_length_and_mask at h
  cases hc : c.ws_helper_ with
  | none => simp [hc] at h
  | some hh =>
    simp only [hc] at h
    by_cases hl : bytes + (if hh.ws_reader_.has_mask = true then 4 else 0) = 0
    · rw [if_pos hl] at h
      exact handle_ws_started h
    · rw [if_neg hl] at h
      simp only [Option.some.injEq] at h
      subst h
      exact ⟨[_], rfl, by simp [is_ws_op]⟩

theorem do_read_ws_header_completion_started {code : Bool} {data : List Nat}
    {c c1 : base_connection} (h : do_read_ws_header_completion code data c = some c1) :
    ws_started c c1 := by
  unfold do_read_ws_header_completion at h
  split at h
  · exact close_started h
  · split at h
    · simp at h
    · simp only at h
      split at h
      · exact ws_started_trans (by exact ws_started_of_pending_eq rfl)
          (do_read_ws_length_and_mask_started h)
      · split at h
        · exact ws_started_trans (by exact ws_started_of_pending_eq rfl)
            (do_read_ws_length_and_mask_started h)
        · exact ws_started_trans (by exact ws_started_of_pending_eq rfl)
            (do_read_ws_length_and_mask_started h)

theorem do_write_ws_completion_started {code : Bool} {n : Nat} {c c1 : base_connection}
    (h : do_write_ws_completion code n c = some c1) : ws_started c c1 := by
  unfold do_write_ws_completion at h
  split at h
  · split at h
    · exact close_started h
    · simp at h
  · simp only at h
    split at h
    · exact ws_started_trans (by exact ws_started_of_pending_eq rfl) (close_started h)
    · split at h
      · simp at h
      · split at h
        · exact ws_started_trans (by exact ws_started_of_pending_eq rfl)
            (do_send_ws_frame_started h)
        · simp only [Option.some.injEq] at h
          subst h
          exact ws_started_of_pending_eq rfl

theorem take_op_mem (p : async_op → Bool) (l : List async_op) (op : async_op)
    (others : List async_op) (h : take_op p l = some (op, others)) :
    op ∈ l ∧ ∀ x ∈ others, x ∈ l := by
  induction l generalizing op others with
  | nil => simp [take_op] at h
  | cons a t ih =>
    simp only [take_op] at h
    split at h
    · simp only [Option.some.injEq, Prod.mk.injEq] at h
      obtain ⟨rfl, rfl⟩ := h
      exact ⟨List.mem_cons_self _ _, fun x hx => List.mem_cons_of_mem _ hx⟩
    · cases ht : take_op p t with
      | none => simp [ht] at h
      | some r =>
        obtain ⟨found, rest⟩ := r
        simp only [ht, Option.some.injEq, Prod.mk.injEq] at h
        obtain ⟨rfl, rfl⟩ := h
        obtain ⟨h1, h2⟩ := ih found rest ht
        refine ⟨List.mem_cons_of_mem _ h1, ?_⟩
        intro x hx
        rcases List.mem_cons.mp hx with rfl | hx
        · exact List.mem_cons_self _ _
        · exact List.mem_cons_of_mem _ (h2 x hx)

theorem complete_ws_started (e : collaborators) (ev : event) (op : async_op)
    (c c1 : base_connection) (hop : is_ws_op op = true) (h : complete e ev op c = some c1) :
    ws_started c c1 := by
  cases ev <;> cases op <;>
    simp only [complete, is_ws_op, Bool.false_eq_true, reduceCtorEq] at h hop <;>
    first
    | exact do_read_ws_header_completion_started h
    | exact do_read_ws_length_and_mask_completion_started h
    | exact do_read_ws_payload_completion_started h
    | exact do_write_ws_completion_started h

theorem close_of_not_handshake (c : base_connection) (h : c.ws_handshake_ = false) :
    close c = some { c with
      trace := c.trace ++ [effect.socket_shutdown, effect.socket_close] } := by
  simp [close, h, base_connection.emit]

theorem ws_only_step (e : collaborators) (ev : event) (c c1 : base_connection)
    (hc : ws_only c) (h : step e ev c = some c1) : ws_only c1 := by
  cases ev with
  | send f => exact ws_only_of_started (send_ws_frame_started h) hc
  | close_call => exact ws_only_of_started (close_started h) hc
  | _ =>
    simp only [step] at h
    split at h
    · simp at h
    · rename_i op others htake
      obtain ⟨hmem, hsub⟩ := take_op_mem _ _ _ _ htake
      have hc' : ws_only { c with pending := others } := fun x hx => hc x (hsub x hx)
      exact ws_only_of_started (complete_ws_started e _ op _ c1 (hc op hmem) h) hc'

theorem tls_handshaking_step (e : collaborators) (ev : event) (c c1 : base_connection)
    (hc : tls_handshaking c) (h : step e ev c = some c1) : phase_inv c1 := by
  obtain ⟨hp, htls, hhs, hw, hh⟩ := hc
  cases ev with
  | send f => simp [step, send_ws_frame, hw] at h
  | close_call =>
    simp only [step, close_of_not_handshake c hh, Option.some.injEq] at h
    subst h
    exact Or.inl ⟨hp, htls, hhs, hw, hh⟩
  | handshake_done code =>
    simp only [step, hp, take_op, completes, if_true, complete, do_handshake_completion] at h
    cases code with
    | true =>
      rw [if_pos rfl, close_of_not_handshake { c with pending := [] } hh] at h
      simp only [Option.some.injEq] at h
      subst h
      exact Or.inr (Or.inr (Or.inr (by intro op hop; simp at hop)))
    | false =>
      simp only [Bool.false_eq_true, if_false, do_read_some, Option.some.injEq] at h
      subst h
      exact Or.inr (Or.inl ⟨rfl, hw, hh, fun _ => rfl⟩)
  | read_some_done _ _ _ => simp [step, hp, take_op, completes] at h
  | write_done _ => simp [step, hp, take_op, completes] at h
  | read_ws_done _ _ => simp [step, hp, take_op, completes] at h
  | write_ws_done _ _ => simp [step, hp, take_op, completes] at h

theorem http_reading_step (e : collaborators) (ev : event) (c c1 : base_connection)
    (hc : http_reading c) (h : step e ev c = some c1) : phase_inv c1 := by
  obtain ⟨hp, hw, hh, htls⟩ := hc
  cases ev with
  | send f => simp [step, send_ws_frame, hw] at h
  | close_call =>
    simp only [step, close_of_not_handshake c hh, Option.some.injEq] at h
    subst h
    exact Or.inr (Or.inl ⟨hp, hw, hh, htls⟩)
  | read_some_done code parse_code ctxs =>
    cases code with
    | true =>
      simp only [step, hp, take_op, completes, if_true, complete, do_read_some_completion] at h
      rw [close_of_not_handshake { c with pending := [] } hh] at h
      simp only [Option.some.injEq] at h
      subst h
      exact Or.inr (Or.inr (Or.inr (by intro op hop; simp at hop)))
    | false =>
      by_cases h0 : parse_code = 0
      · subst h0
        rw [dispatch_step e c ctxs hp] at h
        split at h
        · simp only [Option.some.injEq] at h
          subst h
          exact Or.inr (Or.inr (Or.inl ⟨⟨_, _, rfl⟩, hh, htls⟩))
        · simp only [Option.some.injEq] at h
          subst h
          exact Or.inr (Or.inr (Or.inr (by intro op hop; simp at hop)))
      · simp only [step, hp, take_op, completes, if_true, complete, do_read_some_completion,
          Bool.false_eq_true, if_false, h0] at h
        by_cases h1 : parse_code = -1
        · simp only [h1, if_true, reply_error, reply, Option.some.injEq] at h
          subst h
          exact Or.inr (Or.inr (Or.inl ⟨⟨_, _, rfl⟩, hh, htls⟩))
        · simp only [h1, if_false, do_read, do_read_some, do_handshake] at h
          cases hs : c.https with
          | false =>
            simp only [hs, Bool.false_eq_true, if_false, Option.some.injEq] at h
            subst h
            exact Or.inr (Or.inl ⟨rfl, hw, hh, by intro hx; simp [base_connection.async] at hx⟩)
          | true =>
            simp only [hs, htls hs, if_true, Option.some.injEq] at h
            subst h
            exact Or.inr (Or.inl ⟨rfl, hw, hh, fun _ => rfl⟩)
  | handshake_done _ => simp [step, hp, take_op, completes] at h
  | write_done _ => simp [step, hp, take_op, completes] at h
  | read_ws_done _ _ => simp [step, hp, take_op, completes] at h
  | write_ws_done _ _ => simp [step, hp, take_op, completes] at h

theorem http_writing_step (e : collaborators) (ev : event) (c c1 : base_connection)
    (hc : http_writing c) (h : step e ev c = some c1) : phase_inv c1 := by
  obtain ⟨⟨buffers, is_close, hp⟩, hh, htls⟩ := hc
  cases ev with
  | send f =>
    simp only [step, send_ws_frame] at h
    split at h
    · simp at h
    · simp only [hh, Bool.false_eq_true, and_false, if_false, Option.some.injEq] at h
      subst h
      exact Or.inr (Or.inr (Or.inl ⟨⟨_, _, hp⟩, rfl, htls⟩))
  | close_call =>
    simp only [step, close_of_not_handshake c hh, Option.some.injEq] at h
    subst h
    exact Or.inr (Or.inr (Or.inl ⟨⟨_, _, hp⟩, hh, htls⟩))
  | write_done code =>
    rw [write_done_step e c buffers is_close code hp] at h
    simp only [reply_completion] at h
    split at h
    · rw [close_of_not_handshake { c with pending := [] } hh] at h
      simp only [Option.some.injEq] at h
      subst h
      exact Or.inr (Or.inr (Or.inr (by intro op hop; simp at hop)))
    · split at h
      · have := do_read_ws_header_started h
        exact Or.inr (Or.inr (Or.inr (ws_only_of_started this (by intro op hop; simp [base_connection.emit] at hop))))
      · simp only [do_read, do_read_some, do_handshake, base_connection.emit] at h
        rename_i hnone
        cases hs : c.https with
        | false =>
          simp only [hs, Bool.false_eq_true, if_false, Option.some.injEq] at h
          subst h
          exact Or.inr (Or.inl ⟨rfl, hnone, hh, by intro hx; simp [base_connection.async] at hx⟩)
        | true =>
          simp only [hs, htls hs, if_true, Option.some.injEq] at h
          subst h
          exact Or.inr (Or.inl ⟨rfl, hnone, hh, fun _ => rfl⟩)
  | handshake_done _ => simp [step, hp, take_op, completes] at h
  | read_some_done _ _ _ => simp [step, hp, take_op, completes] at h
  | read_ws_done _ _ => simp [step, hp, take_op, completes] at h
  | write_ws_done _ _ => simp [step, hp, take_op, completes] at h

theorem phase_inv_step (e : collaborators) (ev : event) (c c1 : base_connection)
    (hc : phase_inv c) (h : step e ev c = some c1) : phase_inv c1 := by
  rcases hc with hc | hc | hc | hc
  · exact tls_handshaking_step e ev c c1 hc h
  · exact http_reading_step e ev c c1 hc h
  · exact http_writing_step e ev c c1 hc h
  · exact Or.inr (Or.inr (Or.inr (ws_only_step e ev c c1 hc h)))

theorem phase_inv_steps (e : collaborators) (sched : List event) :
    ∀ (c c1 : base_connection), phase_inv c → steps e sched c = some c1 → phase_inv c1 := by
  induction sched with
  | nil =>
    intro c c1 hc h
    simp only [steps, Option.some.injEq] at h
    subst h
    exact hc
  | cons ev evs ih =>
    intro c c1 hc h
    simp only [steps] at h
    cases hs : step e ev c with
    | none => simp [hs] at h
    | some c2 =>
      rw [hs] at h
      exact ih c2 c1 (phase_inv_step e ev c c2 hc hs) h

theorem phase_inv_of_reachable (e : collaborators) (c : base_connection)
    (h : reachable e c) : phase_inv c := by
  obtain ⟨https, sched, c0, hrun, hsteps⟩ := h
  refine phase_inv_steps e sched c0 c ?_ hsteps
  cases https with
  | false =>
    simp only [run, do_read, accepted, Bool.false_eq_true, if_false, do_read_some,
      Option.some.injEq] at hrun
    subst hrun
    exact Or.inr (Or.inl ⟨rfl, rfl, rfl, by intro h; cases h⟩)
  | true =>
    simp only [run, do_read, accepted, if_true, Bool.false_eq_true, if_false, do_handshake,
      Option.some.injEq] at hrun
    subst hrun
    exact Or.inl ⟨rfl, rfl, rfl, rfl, rfl⟩

/-- Whenever the HTTP read is in flight on a connection that was started by `run()`, the
connection is in the HTTP reading state: the read is the only operation in flight, no
session exists and the session handshake flag is clear. -/
theorem http_reading_of_reachable (e : collaborators) (c : base_connection)
    (h : reachable e c) (hr : async_op.read_some ∈ c.pending) : http_reading c := by
  rcases phase_inv_of_reachable e c h with hc | hc | hc | hc
  · rw [hc.1] at hr
    simp at hr
  · exact hc
  · obtain ⟨⟨b, ic, hp⟩, _⟩ := hc
    rw [hp] at hr
    simp at hr
  · have := hc _ hr
    simp [is_ws_op] at this

/-- C7 (pipelining): in the HTTP reading state, for every batch of contexts that are all
keep-alive, none streaming, none with upgrade intent (and whose serialised responses are
not all empty), the dispatch step calls the handler exactly once per context in arrival
order and starts exactly one write, of the serialised responses concatenated in arrival
order, with close-after-write false; when that write succeeds `close()` is not called, the
parser is reset and the read is re-issued: the connection is in the reading state again. -/
theorem C7_pipelining (e : collaborators) (c : base_connection) (ctxs : List context)
    (hr : http_reading c)
    (hk : ∀ ctx ∈ ctxs, (e.handler ctx).req.keepalive = true ∧
      (e.handler ctx).res.is_stream = false ∧ (e.handler ctx).req.websocket = false)
    (hb : concat (ctxs.map (fun ctx => e.to_string (processed_response e ctx))) ≠ "") :
    ∃ c1 c2,
      step e (event.read_some_done false 0 ctxs) c = some c1 ∧
      c1.trace = c.trace ++ ctxs.map effect.handler_call ++
        [effect.start (async_op.write
          (concat (ctxs.map (fun ctx => e.to_string (processed_response e ctx)))) false)] ∧
      c1.pending = [async_op.write
          (concat (ctxs.map (fun ctx => e.to_string (processed_response e ctx)))) false] ∧
      step e (event.write_done false) c1 = some c2 ∧
      c2.trace = c1.trace ++ [effect.parser_reset, effect.start async_op.read_some] ∧
      c2.pending = [async_op.read_some] ∧
      http_reading c2 := by
  obtain ⟨hp, hw, hh, htls⟩ := hr
  have hsb : send_buffer e ctxs
      = concat (ctxs.map (fun ctx => e.to_string (processed_response e ctx))) := by
    unfold send_buffer
    have : (ctxs.map (processed_response e)).filter (fun res => !res.is_stream)
        = ctxs.map (processed_response e) := by
      rw [List.filter_eq_self]
      intro r hr
      obtain ⟨ctx, hc, rfl⟩ := List.mem_map.mp hr
      simp [processed_response, (hk ctx hc).2.1]
    rw [this, List.map_map]
    rfl
  have hany : (ctxs.any fun ctx => !(e.handler ctx).req.keepalive) = false := by
    rw [List.any_eq_false]
    intro ctx hc
    simp [(hk ctx hc).1]
  have hsess : session_after e none ctxs = none := by
    unfold session_after
    have : ctxs.find? (fun ctx => (e.handler ctx).req.websocket) = none := by
      rw [List.find?_eq_none]
      intro ctx hc
      simp [(hk ctx hc).2.2]
    simp [this]
  have h1 := dispatch_step e c ctxs hp
  rw [hsb, hany, hw, hsess] at h1
  simp only [ne_eq, hb, not_false_eq_true, if_true] at h1
  refine ⟨_, { c with
      pending := [async_op.read_some]
      parser_contexts := []
      ws_helper_ := none
      trace := c.trace ++ ctxs.map effect.handler_call ++
        [effect.start (async_op.write
          (concat (ctxs.map (fun ctx => e.to_string (processed_response e ctx)))) false),
         effect.parser_reset, effect.start async_op.read_some] }, h1, ?_, ?_, ?_, ?_, ?_, ?_⟩
  · simp [base_connection.async]
  · simp [base_connection.async]
  · rw [write_done_step e _ (concat (ctxs.map (fun ctx => e.to_string (processed_response e ctx))))
      false false (by simp [base_connection.async])]
    simp only [reply_completion, base_connection.async, base_connection.emit, do_read,
      do_read_some, do_handshake]
    cases hs : c.https
    · simp
    · simp [htls hs]
  · simp [base_connection.async]
  · rfl
  · exact ⟨rfl, rfl, hh, htls⟩

/-- C7 at three pipelined requests: one write of `ABC`, then the next read. -/
theorem C7_witness :
    http_reading reading ∧
    (∀ ctx ∈ three_requests, (plain.handler ctx).req.keepalive = true ∧
      (plain.handler ctx).res.is_stream = false ∧ (plain.handler ctx).req.websocket = false) ∧
    concat (three_requests.map (fun ctx => plain.to_string (processed_response plain ctx))) = "ABC" ∧
    ∃ c1 c2,
      step plain (event.read_some_done false 0 three_requests) reading = some c1 ∧
      c1.trace = reading.trace ++ three_requests.map effect.handler_call ++
        [effect.start (async_op.write
          (concat (three_requests.map (fun ctx => plain.to_string (processed_response plain ctx))))
          false)] ∧
      c1.pending = [async_op.write
          (concat (three_requests.map (fun ctx => plain.to_string (processed_response plain ctx))))
          false] ∧
      step plain (event.write_done false) c1 = some c2 ∧
      c2.trace = c1.trace ++ [effect.parser_reset, effect.start async_op.read_some] ∧
      c2.pending = [async_op.read_some] ∧
      http_reading c2 :=
  ⟨⟨rfl, rfl, rfl, by decide⟩, by decide, by decide,
    C7_pipelining plain reading three_requests ⟨rfl, rfl, rfl, by decide⟩ (by decide) (by decide)⟩

/-- Close on decline where a write is started: in the HTTP reading state, for every batch
with a non-empty send buffer in which at least one request declines persistence, whatever
the other responses prefer, exactly one write is started with close-after-write true, and
when it completes (with or without a transport error) `close()` is called: the socket is
shut down and closed, no read is started, and frame-reading mode is not entered. -/
theorem close_on_decline_with_write (e : collaborators) (c : base_connection) (ctxs : List context)
    (code : Bool) (hr : http_reading c)
    (hd : ∃ ctx ∈ ctxs, (e.handler ctx).req.keepalive = false)
    (hb : send_buffer e ctxs ≠ "") :
    ∃ c1 c2,
      step e (event.read_some_done false 0 ctxs) c = some c1 ∧
      c1.trace = c.trace ++ ctxs.map effect.handler_call ++
        [effect.start (async_op.write (send_buffer e ctxs) true)] ∧
      c1.pending = [async_op.write (send_buffer e ctxs) true] ∧
      step e (event.write_done code) c1 = some c2 ∧
      c2.trace = c1.trace ++ [effect.socket_shutdown, effect.socket_close] ∧
      c2.pending = [] ∧
      c2.ws_handshake_ = false := by
  obtain ⟨hp, hw, hh, htls⟩ := hr
  have hany : (ctxs.any fun ctx => !(e.handler ctx).req.keepalive) = true := by
    rw [List.any_eq_true]
    obtain ⟨ctx, hc, hk⟩ := hd
    exact ⟨ctx, hc, by simp [hk]⟩
  have h1 := dispatch_step e c ctxs hp
  rw [hany] at h1
  simp only [ne_eq, hb, not_false_eq_true, if_true] at h1
  refine ⟨_, { c with
      pending := []
      parser_contexts := ctxs.map (processed_context e)
      ws_helper_ := session_after e c.ws_helper_ ctxs
      trace := c.trace ++ ctxs.map effect.handler_call ++
        [effect.start (async_op.write (send_buffer e ctxs) true),
         effect.socket_shutdown, effect.socket_close] }, h1, ?_, ?_, ?_, ?_, ?_, ?_⟩
  · simp [base_connection.async]
  · simp [base_connection.async]
  · rw [write_done_step e _ (send_buffer e ctxs) true code (by simp [base_connection.async])]
    simp [reply_completion, close, base_connection.async, base_connection.emit, hh]
  · simp [base_connection.async]
  · rfl
  · exact hh

/-- Close on decline at a batch of two: the first declines, the second does not. -/
theorem close_on_decline_with_write_witness :
    http_reading reading ∧
    (∃ ctx ∈ decline_then_keep, (plain.handler ctx).req.keepalive = false) ∧
    send_buffer plain decline_then_keep = "AB" ∧
    ∃ c1 c2,
      step plain (event.read_some_done false 0 decline_then_keep) reading = some c1 ∧
      c1.trace = reading.trace ++ decline_then_keep.map effect.handler_call ++
        [effect.start (async_op.write (send_buffer plain decline_then_keep) true)] ∧
      c1.pending = [async_op.write (send_buffer plain decline_then_keep) true] ∧
      step plain (event.write_done false) c1 = some c2 ∧
      c2.trace = c1.trace ++ [effect.socket_shutdown, effect.socket_close] ∧
      c2.pending = [] ∧
      c2.ws_handshake_ = false :=
  ⟨⟨rfl, rfl, rfl, by decide⟩, by decide, by decide,
    close_on_decline_with_write plain reading decline_then_keep false ⟨rfl, rfl, rfl, by decide⟩
      (by decide) (by decide)⟩

/-! ### The outbound queue -/

theorem enqueues_append (s t : List effect) : enqueues (s ++ t) = enqueues s ++ enqueues t := by
  simp [enqueues, List.filterMap_append]

theorem ws_writes_append (s t : List effect) :
    ws_writes (s ++ t) = ws_writes s ++ ws_writes t := by
  simp [ws_writes, List.filterMap_append]

theorem enqueues_nil : enqueues [] = [] := rfl

theorem ws_writes_nil : ws_writes [] = [] := rfl

theorem enqueues_cons (a : effect) (t : List effect) :
    enqueues (a :: t) = (match a with | effect.enqueue f => [f] | _ => []) ++ enqueues t := by
  cases a <;> rfl

theorem ws_writes_cons (a : effect) (t : List effect) :
    ws_writes (a :: t)
      = (match a with | effect.start (async_op.write_ws d) => [d] | _ => []) ++ ws_writes t := by
  cases a with
  | start op => cases op <;> rfl
  | _ => rfl

/-- A `send` call keeps the outbound invariant and records the frame. -/
theorem outbound_inv_send (t0 : List effect) (q0 : List ws_frame) (c : base_connection)
    (t : List effect) (f : ws_frame) (hI : outbound_inv t0 q0 c t) :
    ∃ c' t', send_ws_frame f c = some c' ∧ outbound_inv t0 q0 c' t' ∧
      enqueues t' = enqueues t ++ [f] := by
  obtain ⟨h, done, hc, ht, hq, hk⟩ := hI
  simp only [send_ws_frame, hc]
  rcases hk with ⟨hp, hb, hw⟩ | ⟨f0, rest, hq0, hp, hb, hw⟩ | ⟨f0, rest, hq0, hp, hw⟩
  · by_cases hstart : (h.write_queue_ ++ [f]).length = 1 ∧ c.ws_handshake_ = true
    · have hnil : h.write_queue_ = [] := by
        have := hstart.1
        simp at this
        exact this
      rw [if_pos hstart]
      simp only [do_send_ws_frame, base_connection.emit, hnil, List.nil_append, do_write_ws, hb]
      refine ⟨_, t ++ [effect.enqueue f, effect.start (async_op.write_ws (serialize_ws_frame f))], rfl, ?_, ?_⟩
      · refine ⟨_, done, rfl, ?_, ?_, Or.inr (Or.inl ⟨f, [], ?_, ?_, ?_, ?_⟩)⟩
        · simp [base_connection.async, ht]
        · simp [enqueues_append, enqueues_cons, enqueues_nil, ← List.append_assoc, hq, hnil]
        · simp
        · simp [ws_writes_pending, base_connection.async, List.filter_append, is_write_ws]
          simpa [ws_writes_pending] using hp
        · simp
        · simp [ws_writes_append, ws_writes_cons, ws_writes_nil, hw]
      · simp [enqueues_append, enqueues_cons, enqueues_nil]
    · rw [if_neg hstart]
      refine ⟨_, t ++ [effect.enqueue f], rfl, ?_, ?_⟩
      · refine ⟨_, done, rfl, ?_, ?_, Or.inl ⟨?_, ?_, ?_⟩⟩
        · simp [base_connection.emit, ht]
        · simp [enqueues_append, enqueues_cons, enqueues_nil, ← List.append_assoc, hq]
        · simpa [ws_writes_pending, base_connection.emit] using hp
        · simpa using hb
        · simp [ws_writes_append, ws_writes_cons, ws_writes_nil, hw]
      · simp [enqueues_append, enqueues_cons, enqueues_nil]
  · have hstart : ¬ ((h.write_queue_ ++ [f]).length = 1 ∧ c.ws_handshake_ = true) := by
      rw [hq0]; simp
    rw [if_neg hstart]
    refine ⟨_, t ++ [effect.enqueue f], rfl, ?_, ?_⟩
    · refine ⟨_, done, rfl, ?_, ?_, Or.inr (Or.inl ⟨f0, rest ++ [f], ?_, ?_, ?_, ?_⟩)⟩
      · simp [base_connection.emit, ht]
      · simp [enqueues_append, enqueues_cons, enqueues_nil, ← List.append_assoc, hq]
      · simp [hq0]
      · simpa [ws_writes_pending, base_connection.emit] using hp
      · simpa using hb
      · simp [ws_writes_append, ws_writes_cons, ws_writes_nil, hw]
    · simp [enqueues_append, enqueues_cons, enqueues_nil]
  · have hstart : ¬ ((h.write_queue_ ++ [f]).length = 1 ∧ c.ws_handshake_ = true) := by
      rw [hq0]; simp
    rw [if_neg hstart]
    refine ⟨_, t ++ [effect.enqueue f], rfl, ?_, ?_⟩
    · refine ⟨_, done, rfl, ?_, ?_, Or.inr (Or.inr ⟨f0, rest ++ [f], ?_, ?_, ?_⟩)⟩
      · simp [base_connection.emit, ht]
      · simp [enqueues_append, enqueues_cons, enqueues_nil, ← List.append_assoc, hq]
      · simp [hq0]
      · simpa [ws_writes_pending, base_connection.emit] using hp
      · simp [ws_writes_append, ws_writes_cons, ws_writes_nil, hw]
    · simp [enqueues_append, enqueues_cons, enqueues_nil]

theorem completes_write_ws_done (code : Bool) (n : Nat) (op : async_op)
    (h : is_write_ws op = false) : completes (event.write_ws_done code n) op = false := by
  cases op <;> simp_all [completes, is_write_ws]

theorem take_op_write_ws_none (code : Bool) (n : Nat) (pending : List async_op)
    (hp : pending.filter is_write_ws = []) :
    take_op (completes (event.write_ws_done code n)) pending = none := by
  induction pending with
  | nil => rfl
  | cons op ops ih =>
    by_cases hw : is_write_ws op = true
    · simp [List.filter_cons, hw] at hp
    · have hw' : is_write_ws op = false := by simpa using hw
      simp only [List.filter_cons, hw', Bool.false_eq_true, if_false] at hp
      simp [take_op, completes_write_ws_done code n op hw', ih hp]

theorem take_op_write_ws_one (code : Bool) (n : Nat) (d : List Nat) (pending : List async_op)
    (hp : pending.filter is_write_ws = [async_op.write_ws d]) :
    ∃ others, others.filter is_write_ws = [] ∧
      take_op (completes (event.write_ws_done code n)) pending
        = if (code || n == d.length) = true then some (async_op.write_ws d, others) else none := by
  induction pending with
  | nil => simp at hp
  | cons op ops ih =>
    by_cases hw : is_write_ws op = true
    · simp only [List.filter_cons, hw, if_true, List.cons.injEq] at hp
      obtain ⟨rfl, hops⟩ := hp
      by_cases hcond : (code || n == d.length) = true
      · exact ⟨ops, hops, by simp only [take_op, completes, hcond, if_true]⟩
      · refine ⟨ops, hops, ?_⟩
        have hn := take_op_write_ws_none code n ops hops
        simp only [take_op, completes, hcond, hn, if_false, Bool.false_eq_true]
    · have hw' : is_write_ws op = false := by simpa using hw
      simp only [List.filter_cons, hw', Bool.false_eq_true, if_false] at hp
      obtain ⟨others, ho, ht⟩ := ih hp
      refine ⟨op :: others, by simp [List.filter_cons, hw', ho], ?_⟩
      simp only [take_op, completes_write_ws_done code n op hw', Bool.false_eq_true, if_false, ht]
      by_cases hcond : (code || n == d.length) = true
      · simp [hcond]
      · simp [hcond]

/-- The member `close()` in closed form, for a connection that has a session. -/
theorem close_eq (c : base_connection) (h : ws_helper) (hc : c.ws_helper_ = some h) :
    close c = some { c with
      ws_handshake_ := false
      trace := c.trace ++ ((if c.ws_handshake_ then [effect.emit_close h.websocket_ true] else []) ++
        [effect.socket_shutdown, effect.socket_close]) } := by
  cases hh : c.ws_handshake_ <;> simp [close, hc, hh, base_connection.emit]

/-- The completion of a WebSocket write keeps the outbound invariant. -/
theorem outbound_inv_write_done (e : collaborators) (t0 : List effect) (q0 : List ws_frame)
    (c c' : base_connection) (t : List effect) (code : Bool) (n : Nat)
    (hI : outbound_inv t0 q0 c t)
    (hs : step e (event.write_ws_done code n) c = some c') :
    ∃ t', outbound_inv t0 q0 c' t' ∧ enqueues t' = enqueues t := by
  obtain ⟨h, done, hc, ht, hq, hk⟩ := hI
  simp only [step] at hs
  rcases hk with ⟨hp, hb, hw⟩ | ⟨f0, rest, hq0, hp, hb, hw⟩ | ⟨f0, rest, hq0, hp, hw⟩
  · rw [take_op_write_ws_none code n c.pending hp] at hs
    simp at hs
  · obtain ⟨others, ho, htake⟩ := take_op_write_ws_one code n _ c.pending hp
    rw [htake] at hs
    by_cases hcond : (code || n == (serialize_ws_frame f0).length) = true
    · simp only [hcond, if_true, complete, do_write_ws_completion, hc] at hs
      cases code with
      | true =>
        rw [if_pos rfl, close_eq _ _ rfl] at hs
        simp only [Option.some.injEq] at hs
        subst hs
        refine ⟨t ++ ((if c.ws_handshake_ then [effect.emit_close h.websocket_ true] else []) ++
          [effect.socket_shutdown, effect.socket_close]), ?_, ?_⟩
        · refine ⟨_, done, rfl, ?_, ?_, Or.inr (Or.inr ⟨f0, rest, hq0, ?_, ?_⟩)⟩
          · simp [ht]
          · cases c.ws_handshake_ <;>
              simpa [enqueues_append, enqueues_cons, enqueues_nil] using hq
          · simpa [ws_writes_pending] using ho
          · cases c.ws_handshake_ <;>
              simpa [ws_writes_append, ws_writes_cons, ws_writes_nil] using hw
        · cases c.ws_handshake_ <;> simp [enqueues_append, enqueues_cons, enqueues_nil]
      | false =>
        have hn : n = (serialize_ws_frame f0).length := by simpa using hcond
        simp only [Bool.false_eq_true, if_false, hq0] at hs
        cases rest with
        | nil =>
          simp only [ne_eq, not_true_eq_false, if_false, Option.some.injEq] at hs
          subst hs
          refine ⟨t, ⟨_, done ++ [f0], rfl, ht, ?_, Or.inl ⟨?_, ?_, hw⟩⟩, rfl⟩
          · simpa [hq0] using hq
          · simpa [ws_writes_pending] using ho
          · simp [hb, hn]
        | cons f1 rest1 =>
          simp only [ne_eq, reduceCtorEq, not_false_eq_true, if_true, do_send_ws_frame,
            do_write_ws, Option.some.injEq] at hs
          subst hs
          refine ⟨t ++ [effect.start (async_op.write_ws (serialize_ws_frame f1))],
            ⟨_, done ++ [f0], rfl, ?_, ?_, Or.inr (Or.inl ⟨f1, rest1, rfl, ?_, ?_, ?_⟩)⟩, ?_⟩
          · simp [base_connection.async, ht, hb, hn]
          · simpa [hq0, enqueues_append, enqueues_cons, enqueues_nil] using hq
          · simp [ws_writes_pending, base_connection.async, List.filter_append, is_write_ws, ho,
              hb, hn]
          · simp [hb, hn]
          · simp [ws_writes_append, ws_writes_cons, ws_writes_nil, hw]
          · simp [enqueues_append, enqueues_cons, enqueues_nil]
    · simp [hcond] at hs
  · rw [take_op_write_ws_none code n c.pending hp] at hs
    simp at hs

/-- While a write is in flight its completion, with or without error, is defined. -/
theorem outbound_inv_write_enabled (e : collaborators) (t0 : List effect) (q0 : List ws_frame)
    (c : base_connection) (t : List effect) (code : Bool)
    (hI : outbound_inv t0 q0 c t) (hf : ws_writes_in_flight c = 1) :
    ∃ n c', step e (event.write_ws_done code n) c = some c' := by
  obtain ⟨h, done, hc, ht, hq, hk⟩ := hI
  rcases hk with ⟨hp, hb, hw⟩ | ⟨f0, rest, hq0, hp, hb, hw⟩ | ⟨f0, rest, hq0, hp, hw⟩
  · simp [ws_writes_in_flight, hp] at hf
  · obtain ⟨others, ho, htake⟩ :=
      take_op_write_ws_one code (serialize_ws_frame f0).length _ c.pending hp
    refine ⟨(serialize_ws_frame f0).length, ?_⟩
    simp only [step, htake, Bool.or_eq_true, beq_self_eq_true, or_true, if_true, complete,
      do_write_ws_completion, hc, hq0]
    cases code with
    | true => rw [if_pos rfl, close_eq _ _ rfl]; exact ⟨_, rfl⟩
    | false =>
      cases rest with
      | nil => simp
      | cons f1 rest1 => simp [do_send_ws_frame, do_write_ws]
  · simp [ws_writes_in_flight, hp] at hf

/-- The outbound invariant along a schedule of `send` calls and write completions. -/
theorem outbound_inv_steps (e : collaborators) (t0 : List effect) (q0 : List ws_frame)
    (sched : List event) :
    ∀ (c c' : base_connection) (t : List effect), outbound_inv t0 q0 c t →
      (∀ ev ∈ sched, outbound_event ev = true) → steps e sched c = some c' →
      ∃ t', outbound_inv t0 q0 c' t' ∧ enqueues t' = enqueues t ++ sends sched := by
  induction sched with
  | nil =>
    intro c c' t hI _ hrun
    simp only [steps, Option.some.injEq] at hrun
    subst hrun
    exact ⟨t, hI, by simp [sends]⟩
  | cons ev evs ih =>
    intro c c' t hI hev hrun
    simp only [steps] at hrun
    cases hstep : step e ev c with
    | none => simp [hstep] at hrun
    | some c1 =>
      rw [hstep] at hrun
      simp only [Option.some_bind] at hrun
      have hevs : ∀ ev' ∈ evs, outbound_event ev' = true :=
        fun ev' h' => hev ev' (List.mem_cons_of_mem _ h')
      have hev0 := hev ev (List.mem_cons_self _ _)
      cases ev with
      | send f =>
        obtain ⟨c2, t2, hs2, hI2, he2⟩ := outbound_inv_send t0 q0 c t f hI
        have : c2 = c1 := by
          have h3 : step e (event.send f) c = some c2 := hs2
          rw [hstep] at h3
          exact (Option.some.inj h3).symm
        subst this
        obtain ⟨t', hI', he'⟩ := ih c2 c' t2 hI2 hevs hrun
        exact ⟨t', hI', by simp [he', he2, sends]⟩
      | write_ws_done code n =>
        obtain ⟨t2, hI2, he2⟩ := outbound_inv_write_done e t0 q0 c c1 t code n hI hstep
        obtain ⟨t', hI', he'⟩ := ih c1 c' t2 hI2 hevs hrun
        exact ⟨t', hI', by simp [he', he2, sends]⟩
      | read_some_done _ _ _ => simp [outbound_event] at hev0
      | write_done _ => simp [outbound_event] at hev0
      | read_ws_done _ _ => simp [outbound_event] at hev0
      | handshake_done _ => simp [outbound_event] at hev0
      | close_call => simp [outbound_event] at hev0

/-- C9 (outbound ordering and single flight): start from a session with no write in
flight and an empty stream buffer (queue `q0` arbitrary) and run any interleaving of
`send(frame)` calls and write completions, each an atomic step.  Then at most one write is
in flight, and the byte sequences handed to the transport so far are exactly the
serialisations of the first `k` frames in enqueue order (`q0` followed by the frames of the
`send` calls in call order), one whole frame per write.  Moreover every further `send` is
defined, and while a write is in flight its completion is defined. -/
theorem C9_outbound_order_single_flight (e : collaborators) (c0 c : base_connection)
    (h0 : ws_helper) (sched : List event)
    (hc : c0.ws_helper_ = some h0) (hb : h0.buffer_ = [])
    (hf : ws_writes_in_flight c0 = 0)
    (hev : ∀ ev ∈ sched, outbound_event ev = true)
    (hrun : steps e sched c0 = some c) :
    ws_writes_in_flight c ≤ 1 ∧
    (∃ t k, c.trace = c0.trace ++ t ∧ enqueues t = sends sched ∧
      ws_writes t = ((h0.write_queue_ ++ sends sched).take k).map serialize_ws_frame) ∧
    (∀ f, ∃ c1, step e (event.send f) c = some c1) ∧
    (ws_writes_in_flight c = 1 → ∀ code, ∃ n c1, step e (event.write_ws_done code n) c = some c1) := by
  have hI0 : outbound_inv c0.trace h0.write_queue_ c0 [] := by
    refine ⟨h0, [], hc, by simp, by simp [enqueues_nil], Or.inl ⟨?_, hb, rfl⟩⟩
    exact List.length_eq_zero.mp hf
  obtain ⟨t, hI, he⟩ := outbound_inv_steps e c0.trace h0.write_queue_ sched c0 c [] hI0 hev hrun
  simp only [enqueues_nil, List.nil_append] at he
  have hI' := hI
  obtain ⟨h, done, hc', ht, hq, hk⟩ := hI
  rw [he] at hq
  refine ⟨?_, ?_, ?_, ?_⟩
  · rcases hk with ⟨hp, _, _⟩ | ⟨f0, rest, _, hp, _, _⟩ | ⟨f0, rest, _, hp, _⟩ <;>
      simp [ws_writes_in_flight, hp]
  · rcases hk with ⟨_, _, hw⟩ | ⟨f0, rest, hq0, _, _, hw⟩ | ⟨f0, rest, hq0, _, hw⟩
    · exact ⟨t, done.length, ht, he, by rw [hw, hq]; simp⟩
    · refine ⟨t, done.length + 1, ht, he, ?_⟩
      rw [hw, hq, hq0]
      congr 1
      rw [show done ++ f0 :: rest = (done ++ [f0]) ++ rest by simp]
      rw [List.take_left' (by simp)]
    · refine ⟨t, done.length + 1, ht, he, ?_⟩
      rw [hw, hq, hq0]
      congr 1
      rw [show done ++ f0 :: rest = (done ++ [f0]) ++ rest by simp]
      rw [List.take_left' (by simp)]
  · intro f
    obtain ⟨c1, _, hs, _, _⟩ := outbound_inv_send _ _ c t f hI'
    exact ⟨c1, hs⟩
  · intro hf1 code
    exact outbound_inv_write_enabled e _ _ c t code hI' hf1

/-- C9 at a concrete interleaving: three frames sent, two writes completed, the third in
flight; the writes are the three serialised frames in call order. -/
theorem C9_witness :
    ((ws_session [] []).ws_helper_ = some {} ∧ ({} : ws_helper).buffer_ = [] ∧
      ws_writes_in_flight (ws_session [] []) = 0 ∧
      (∀ ev ∈ outbound_schedule, outbound_event ev = true) ∧
      steps plain outbound_schedule (ws_session [] []) = some outbound_final) ∧
    ws_writes outbound_final.trace = [[129, 1, 7], [130, 0], [138, 0]] ∧
    (ws_writes_in_flight outbound_final ≤ 1 ∧
    (∃ t k, outbound_final.trace = (ws_session [] []).trace ++ t ∧
      enqueues t = sends outbound_schedule ∧
      ws_writes t = ((({} : ws_helper).write_queue_ ++ sends outbound_schedule).take k).map
        serialize_ws_frame) ∧
    (∀ f, ∃ c1, step plain (event.send f) outbound_final = some c1) ∧
    (ws_writes_in_flight outbound_final = 1 →
      ∀ code, ∃ n c1, step plain (event.write_ws_done code n) outbound_final = some c1)) :=
  ⟨⟨rfl, rfl, rfl, by decide, rfl⟩, rfl,
    C9_outbound_order_single_flight plain (ws_session [] []) outbound_final {} outbound_schedule
      rfl rfl rfl (by decide) rfl⟩

/-! ### Opcode dispatch -/

/-- C10 (ping auto-reply): whenever `handle_ws()` runs with a ping frame in the reader
(any payload, any prior outbound queue `q`), the outbound queue becomes `q` followed by
exactly one frame with opcode pong and empty payload; the enqueue is recorded before the
next header read is started, with between them only the start of the pong's write (when
the queue was empty and the handshake is complete); no message event is emitted and the
reader state is unchanged. -/
theorem C10_ping_auto_reply (c : base_connection) (h : ws_helper)
    (hc : c.ws_helper_ = some h) (hop : h.ws_reader_.opcode = ws_opcode.ping) :
    ∃ c' h' t,
      handle_ws c = some c' ∧ c'.ws_helper_ = some h' ∧
      h'.write_queue_ = h.write_queue_ ++ [{ opcode := ws_opcode.pong, payload := [] }] ∧
      c'.trace = c.trace ++ [effect.enqueue { opcode := ws_opcode.pong, payload := [] }] ++ t ++
        [effect.start async_op.read_ws_header] ∧
      t = (if h.write_queue_ = [] ∧ c.ws_handshake_ = true
            then [effect.start (async_op.write_ws (h.buffer_ ++ [0x8a, 0]))] else []) ∧
      messages c'.trace = messages c.trace ∧
      h'.ws_reader_ = h.ws_reader_ := by
  have hops : ¬ h.ws_reader_.opcode = ws_opcode.continuation ∧
      ¬ (h.ws_reader_.opcode = ws_opcode.text ∨ h.ws_reader_.opcode = ws_opcode.binary) ∧
      ¬ h.ws_reader_.opcode = ws_opcode.close := by
    rw [hop]; decide
  simp only [handle_ws, hc, hops.1, hops.2.1, hops.2.2, hop, if_true, if_false, reply_ws_pong,
    send_ws_frame]
  by_cases hstart : h.write_queue_ = [] ∧ c.ws_handshake_ = true
  · have h1 : (h.write_queue_ ++ [({ opcode := ws_opcode.pong, payload := [] } : ws_frame)]).length = 1
        ∧ c.ws_handshake_ = true := by
      simp [hstart.1, hstart.2]
    simp only [h1, hstart, and_self, if_true, do_send_ws_frame, base_connection.emit,
      List.nil_append, do_write_ws, Option.some_bind, do_read_ws_header, base_connection.async]
    refine ⟨_, _, _, rfl, rfl, rfl, ?_, rfl, ?_, rfl⟩
    · simp [serialize_ws_frame, ws_opcode.pong]
    · simp [messages, List.filterMap_append]
  · have h1 : ¬ ((h.write_queue_ ++ [({ opcode := ws_opcode.pong, payload := [] } : ws_frame)]).length = 1
        ∧ c.ws_handshake_ = true) := by
      intro hx
      apply hstart
      refine ⟨?_, hx.2⟩
      have := hx.1
      simpa using this
    simp only [h1, hstart, if_false, base_connection.emit, Option.some_bind, do_read_ws_header,
      base_connection.async]
    refine ⟨_, _, _, rfl, rfl, rfl, ?_, rfl, ?_, rfl⟩
    · simp
    · simp [messages, List.filterMap_append]

/-- C10 at a ping read while a text frame waits in the queue. -/
theorem C10_witness :
    (ping_received.ws_helper_ = some ping_helper ∧
      ping_helper.ws_reader_.opcode = ws_opcode.ping) ∧
    ∃ c' h' t,
      handle_ws ping_received = some c' ∧ c'.ws_helper_ = some h' ∧
      h'.write_queue_ = ping_helper.write_queue_ ++ [{ opcode := ws_opcode.pong, payload := [] }] ∧
      c'.trace = ping_received.trace ++
        [effect.enqueue { opcode := ws_opcode.pong, payload := [] }] ++ t ++
        [effect.start async_op.read_ws_header] ∧
      t = (if ping_helper.write_queue_ = [] ∧ ping_received.ws_handshake_ = true
            then [effect.start (async_op.write_ws (ping_helper.buffer_ ++ [0x8a, 0]))] else []) ∧
      messages c'.trace = messages ping_received.trace ∧
      h'.ws_reader_ = ping_helper.ws_reader_ :=
  ⟨⟨rfl, rfl⟩, C10_ping_auto_reply ping_received ping_helper rfl rfl⟩

/-! ### The close opcode and `close()` -/

/-- With no exact read in flight the reader consumes nothing, whatever the stream holds. -/
theorem ws_feed_idle (e : collaborators) (c : base_connection) (stream : List Nat)
    (h : ws_read_size c.pending = none) :
    ∀ fuel, ws_feed e fuel c stream = some (c, stream) := by
  intro fuel
  cases fuel with
  | zero => rfl
  | succ k => simp [ws_feed, h]

theorem messages_append (s t : List effect) : messages (s ++ t) = messages s ++ messages t := by
  simp [messages, List.filterMap_append]

/-- C11 (close opcode terminates the reader): for every reader state, when `handle_ws()`
runs with a close frame in the reader (no read being in flight at that point), it calls
`close()` and nothing else: no header read is started, no message event is emitted and
nothing is enqueued (no pong); afterwards no byte of any input stream is consumed and
the state does not change, so no frame after the close frame is decoded. -/
theorem C11_close_opcode_terminates_reader (e : collaborators) (c : base_connection)
    (h : ws_helper) (hc : c.ws_helper_ = some h)
    (hop : h.ws_reader_.opcode = ws_opcode.close)
    (hr : ws_read_size c.pending = none) :
    ∃ c1, handle_ws c = some c1 ∧ close c = some c1 ∧
      c1.pending = c.pending ∧ c1.ws_helper_ = some h ∧ c1.ws_handshake_ = false ∧
      c1.trace = c.trace ++ ((if c.ws_handshake_ then [effect.emit_close h.websocket_ true] else []) ++
        [effect.socket_shutdown, effect.socket_close]) ∧
      messages c1.trace = messages c.trace ∧ enqueues c1.trace = enqueues c.trace ∧
      ∀ fuel stream, ws_feed e fuel c1 stream = some (c1, stream) := by
  have hh : handle_ws c = close c := by
    simp only [handle_ws, hc, hop]
    rw [if_neg (by decide), if_neg (by decide)]
    simp
  refine ⟨_, hh.trans (close_eq c h hc), close_eq c h hc, rfl, hc, rfl, rfl, ?_, ?_, ?_⟩
  · cases c.ws_handshake_ <;> simp [messages_append, messages]
  · cases c.ws_handshake_ <;> simp [enqueues_append, enqueues_cons, enqueues_nil]
  · intro fuel stream
    exact ws_feed_idle e _ stream (by exact hr) fuel

/-- C11 at a connection that has just read a close frame. -/
theorem C11_witness :
    (close_received.ws_helper_ = some close_received_helper ∧
      close_received_helper.ws_reader_.opcode = ws_opcode.close ∧
      ws_read_size close_received.pending = none) ∧
    ∃ c1, handle_ws close_received = some c1 ∧ close close_received = some c1 ∧
      c1.pending = close_received.pending ∧ c1.ws_helper_ = some close_received_helper ∧
      c1.ws_handshake_ = false ∧
      c1.trace = close_received.trace ++
        ((if close_received.ws_handshake_ then [effect.emit_close close_received_helper.websocket_ true]
          else []) ++ [effect.socket_shutdown, effect.socket_close]) ∧
      messages c1.trace = messages close_received.trace ∧
      enqueues c1.trace = enqueues close_received.trace ∧
      ∀ fuel stream, ws_feed plain fuel c1 stream = some (c1, stream) :=
  ⟨⟨rfl, rfl, rfl⟩,
    C11_close_opcode_terminates_reader plain close_received close_received_helper rfl rfl rfl⟩

theorem close_events_append (s t : List effect) :
    close_events (s ++ t) = close_events s ++ close_events t := by
  simp [close_events, List.filterMap_append]

/-- Once the handshake flag is clear, further `close()` calls deliver no event and leave
the members as they are. -/
theorem close_times_closed (n : Nat) :
    ∀ c : base_connection, c.ws_handshake_ = false →
      ∃ cn, close_times n c = some cn ∧ cn.members = c.members ∧
        close_events cn.trace = close_events c.trace := by
  induction n with
  | zero => intro c _; exact ⟨c, rfl, rfl, rfl⟩
  | succ n ih =>
    intro c hc
    obtain ⟨cn, h1, h2, h3⟩ := ih { c with
      trace := c.trace ++ [effect.socket_shutdown, effect.socket_close] } hc
    refine ⟨cn, ?_, ?_, ?_⟩
    · simp only [close_times, close_of_not_handshake c hc, Option.some_bind, h1]
    · rw [h2]; rfl
    · rw [h3, close_events_append]; simp [close_events]

/-- C12 (`close()` is idempotent): for every connection state (where the handshake flag is
set only if a session exists) and every `n >= 1`, calling `close()` `n` times leaves the
members of the connection equal to those after a single call, with the handshake flag
clear, and delivers exactly one close-lifecycle event to the session consumer if the
session was active (handshake complete) and none if it was not. -/
theorem C12_close_idempotent (c : base_connection) (n : Nat)
    (hs : c.ws_handshake_ = true → ∃ h, c.ws_helper_ = some h) (hn : 1 ≤ n) :
    ∃ c1 cn, close c = some c1 ∧ close_times n c = some cn ∧
      cn.members = c1.members ∧ cn.ws_handshake_ = false ∧
      close_events cn.trace = close_events c.trace ++
        (match c.ws_handshake_, c.ws_helper_ with
          | true, some h => [h.websocket_]
          | _, _ => []) := by
  obtain ⟨m, rfl⟩ : ∃ m, n = m + 1 := ⟨n - 1, by omega⟩
  cases hh : c.ws_handshake_ with
  | false =>
    obtain ⟨cn, h1, h2, h3⟩ := close_times_closed m { c with
      trace := c.trace ++ [effect.socket_shutdown, effect.socket_close] } hh
    refine ⟨_, cn, close_of_not_handshake c hh, ?_, h2, ?_, ?_⟩
    · simp only [close_times, close_of_not_handshake c hh, Option.some_bind, h1]
    · have : cn.members.ws_handshake_ = false := by rw [h2]; exact hh
      exact this
    · rw [h3, close_events_append]; simp [close_events]
  | true =>
    obtain ⟨h, hc⟩ := hs hh
    obtain ⟨cn, h1, h2, h3⟩ := close_times_closed m { c with
      ws_handshake_ := false
      trace := c.trace ++ ((if c.ws_handshake_ then [effect.emit_close h.websocket_ true] else []) ++
        [effect.socket_shutdown, effect.socket_close]) } rfl
    refine ⟨_, cn, close_eq c h hc, ?_, h2, ?_, ?_⟩
    · simp only [close_times, close_eq c h hc, Option.some_bind, h1]
    · have : cn.members.ws_handshake_ = false := by rw [h2]; rfl
      exact this
    · rw [h3, close_events_append, hh, hc]; simp [close_events]

/-- C12 at three `close()` calls on an active session. -/
theorem C12_witness :
    ((close_received.ws_handshake_ = true → ∃ h, close_received.ws_helper_ = some h) ∧ 1 ≤ 3) ∧
    ∃ c1 cn, close close_received = some c1 ∧ close_times 3 close_received = some cn ∧
      cn.members = c1.members ∧ cn.ws_handshake_ = false ∧
      close_events cn.trace = close_events close_received.trace ++
        (match close_received.ws_handshake_, close_received.ws_helper_ with
          | true, some h => [h.websocket_]
          | _, _ => []) :=
  ⟨⟨fun _ => ⟨_, rfl⟩, by decide⟩,
    C12_close_idempotent close_received 3 (fun _ => ⟨_, rfl⟩) (by decide)⟩

/-! ### Session creation and the upgrade transition -/

/-- The session after `handle_and_reply()`. -/
theorem handle_and_reply_session (e : collaborators) (c : base_connection) :
    ∃ c1, handle_and_reply e c = some c1 ∧
      c1.ws_helper_ = session_after e c.ws_helper_ c.parser_contexts := by
  simp only [handle_and_reply, handle_and_reply_loop, reply]
  split
  · exact ⟨_, rfl, rfl⟩
  · exact ⟨_, rfl, rfl⟩

theorem session_after_append (e : collaborators) (ws : Option ws_helper)
    (xs ys : List context) :
    session_after e (session_after e ws xs) ys = session_after e ws (xs ++ ys) := by
  cases ws with
  | some h => rfl
  | none =>
    simp only [session_after, List.find?_append]
    cases hx : xs.find? (fun ctx => (e.handler ctx).req.websocket) with
    | some ctx => rfl
    | none => rfl

theorem dispatch_batches_session (e : collaborators) (batches : List (List context)) :
    ∀ c : base_connection, ∃ c1, dispatch_batches e batches c = some c1 ∧
      c1.ws_helper_ = session_after e c.ws_helper_ batches.flatten := by
  induction batches with
  | nil =>
    intro c
    refine ⟨c, rfl, ?_⟩
    cases h : c.ws_helper_ <;> simp [session_after]
  | cons b bs ih =>
    intro c
    obtain ⟨c1, h1, hs1⟩ := handle_and_reply_session e { c with parser_contexts := b }
    obtain ⟨c2, h2, hs2⟩ := ih c1
    refine ⟨c2, ?_, ?_⟩
    · simp only [dispatch_batches, h1, Option.some_bind, h2]
    · rw [hs2, hs1, List.flatten_cons]
      exact session_after_append e c.ws_helper_ b bs.flatten

/-- C13 (the session is created at most once): for every connection state and every
sequence of dispatched batches, let `ctx` be the first context of the whole sequence whose
request carries upgrade intent, whatever follows it (`post`, in the same batch or in later
ones, with upgrade intent or not).  After the dispatch the session is the one the
connection already had, unchanged, if it had one; otherwise it is the fresh session
created by `ctx` and bound to the websocket object of `ctx`. -/
theorem C13_session_created_once (e : collaborators) (c : base_connection)
    (batches : List (List context)) (pre post : List context) (ctx : context)
    (hsplit : batches.flatten = pre ++ ctx :: post)
    (hpre : ∀ x ∈ pre, (e.handler x).req.websocket = false)
    (hctx : (e.handler ctx).req.websocket = true) :
    ∃ c1, dispatch_batches e batches c = some c1 ∧
      c1.ws_helper_ = (match c.ws_helper_ with
        | some h => some h
        | none => some { websocket_ := (e.handler ctx).websocket_ptr }) := by
  obtain ⟨c1, h1, hs⟩ := dispatch_batches_session e batches c
  refine ⟨c1, h1, ?_⟩
  rw [hs, hsplit]
  cases hw : c.ws_helper_ with
  | some h => rfl
  | none =>
    have hfind : (pre ++ ctx :: post).find? (fun x => (e.handler x).req.websocket) = some ctx := by
      rw [List.find?_append]
      have : pre.find? (fun x => (e.handler x).req.websocket) = none := by
        rw [List.find?_eq_none]
        intro x hx
        simp [hpre x hx]
      simp [this, List.find?_cons, hctx]
    simp only [session_after, hfind]

/-- C13 at a plain request followed by a batch of two upgrade requests: the session is
bound to the first of the two. -/
theorem C13_witness :
    (two_upgrades.flatten
        = [{ res := { content := "A" } }] ++
            ({ req := { websocket := true }, res := { content := "B" }, websocket_ptr := 7 } : context) ::
            [{ req := { websocket := true }, res := { content := "C" }, websocket_ptr := 9 }] ∧
      (∀ x ∈ [({ res := { content := "A" } } : context)], (plain.handler x).req.websocket = false) ∧
      (plain.handler { req := { websocket := true }, res := { content := "B" },
                       websocket_ptr := 7 }).req.websocket = true) ∧
    ∃ c1, dispatch_batches plain two_upgrades reading = some c1 ∧
      c1.ws_helper_ = (match reading.ws_helper_ with
        | some h => some h
        | none => some { websocket_ := (plain.handler
            { req := { websocket := true }, res := { content := "B" },
              websocket_ptr := 7 }).websocket_ptr }) :=
  ⟨⟨rfl, by decide, rfl⟩,
    C13_session_created_once plain reading two_upgrades _ _ _ rfl (by decide) rfl⟩

/-- C14 (upgrade transition): in the HTTP reading state, for every dispatch of one
keep-alive request with upgrade intent whose response is not streaming (and serialises to
something), one write of the response is started with close-after-write false and the
session is created; when that write succeeds the completion sets the handshake flag, then
delivers exactly one open event to the session consumer (the event is recorded with the
flag already set: it is delivered after the write to the flag), then starts the WebSocket
header read, which is then the only operation in flight; the parser is not reset (it
still holds the processed context) and no HTTP read is started. -/
theorem C14_upgrade_transition (e : collaborators) (c : base_connection) (ctx : context)
    (hr : http_reading c)
    (hk : (e.handler ctx).req.keepalive = true)
    (hu : (e.handler ctx).req.websocket = true)
    (hs : (e.handler ctx).res.is_stream = false)
    (hb : e.to_string (processed_response e ctx) ≠ "") :
    ∃ c1 c2,
      step e (event.read_some_done false 0 [ctx]) c = some c1 ∧
      c1.pending = [async_op.write (e.to_string (processed_response e ctx)) false] ∧
      c1.ws_helper_ = some { websocket_ := (e.handler ctx).websocket_ptr } ∧
      c1.ws_handshake_ = false ∧
      step e (event.write_done false) c1 = some c2 ∧
      step e (event.write_done false) c1
        = do_read_ws_header ({ c1 with pending := [], ws_handshake_ := true }.emit
            (effect.emit_open (e.handler ctx).websocket_ptr true)) ∧
      c2.ws_handshake_ = true ∧
      c2.trace = c1.trace ++ [effect.emit_open (e.handler ctx).websocket_ptr true,
                              effect.start async_op.read_ws_header] ∧
      c2.pending = [async_op.read_ws_header] ∧
      c2.parser_contexts = [processed_context e ctx] := by
  obtain ⟨hp, hw, hh, htls⟩ := hr
  have hsb : send_buffer e [ctx] = e.to_string (processed_response e ctx) := by
    have : (processed_response e ctx).is_stream = false := by simp [processed_response, hs]
    simp [send_buffer, this, concat]
  have hany : ([ctx].any fun x => !(e.handler x).req.keepalive) = false := by
    simp [hk]
  have hsess : session_after e none [ctx]
      = some { websocket_ := (e.handler ctx).websocket_ptr } := by
    simp [session_after, hu]
  have h1 := dispatch_step e c [ctx] hp
  rw [hsb, hany, hw, hsess] at h1
  simp only [ne_eq, hb, not_false_eq_true, if_true] at h1
  have h2 := write_done_step e
    ({ c with
        pending := []
        parser_contexts := [ctx].map (processed_context e)
        trace := c.trace ++ [ctx].map effect.handler_call
        ws_helper_ := some { websocket_ := (e.handler ctx).websocket_ptr } }.async
      (async_op.write (e.to_string (processed_response e ctx)) false))
    (e.to_string (processed_response e ctx)) false false (by simp [base_connection.async])
  refine ⟨_, { c with
      pending := [async_op.read_ws_header]
      parser_contexts := [processed_context e ctx]
      ws_handshake_ := true
      ws_helper_ := some { websocket_ := (e.handler ctx).websocket_ptr }
      trace := c.trace ++ [effect.handler_call ctx,
        effect.start (async_op.write (e.to_string (processed_response e ctx)) false),
        effect.emit_open (e.handler ctx).websocket_ptr true,
        effect.start async_op.read_ws_header] }, h1, ?_, rfl, hh, ?_, ?_, ?_, ?_, ?_, ?_⟩
  · simp [base_connection.async]
  · rw [h2]
    simp [reply_completion, base_connection.async, base_connection.emit, do_read_ws_header]
  · rw [h2]
    simp only [reply_completion, Bool.or_self, Bool.false_eq_true, if_false,
      base_connection.async, base_connection.emit]
  · rfl
  · simp [base_connection.async]
  · rfl
  · rfl

/-- C14 at one upgrade request on a plain connection. -/
theorem C14_witness :
    (http_reading reading ∧
      (plain.handler upgrade_request).req.keepalive = true ∧
      (plain.handler upgrade_request).req.websocket = true ∧
      (plain.handler upgrade_request).res.is_stream = false ∧
      plain.to_string (processed_response plain upgrade_request) = "S") ∧
    ∃ c1 c2,
      step plain (event.read_some_done false 0 [upgrade_request]) reading = some c1 ∧
      c1.pending = [async_op.write (plain.to_string (processed_response plain upgrade_request))
        false] ∧
      c1.ws_helper_ = some { websocket_ := (plain.handler upgrade_request).websocket_ptr } ∧
      c1.ws_handshake_ = false ∧
      step plain (event.write_done false) c1 = some c2 ∧
      step plain (event.write_done false) c1
        = do_read_ws_header ({ c1 with pending := [], ws_handshake_ := true }.emit
            (effect.emit_open (plain.handler upgrade_request).websocket_ptr true)) ∧
      c2.ws_handshake_ = true ∧
      c2.trace = c1.trace ++ [effect.emit_open (plain.handler upgrade_request).websocket_ptr true,
                              effect.start async_op.read_ws_header] ∧
      c2.pending = [async_op.read_ws_header] ∧
      c2.parser_contexts = [processed_context plain upgrade_request] :=
  ⟨⟨⟨rfl, rfl, rfl, by decide⟩, rfl, rfl, rfl, rfl⟩,
    C14_upgrade_transition plain reading upgrade_request ⟨rfl, rfl, rfl, by decide⟩ rfl rfl rfl
      (by decide)⟩

/-! ### Transport errors -/

/-- C15 (transport errors are terminal): for every asynchronous completion (HTTP read, HTTP
write, WebSocket header, length-and-mask or payload read, WebSocket write, TLS handshake)
that reports a transport error, in every connection state (where the handshake flag is set
only if a session exists), the completion handler calls `close()` and does nothing else:
what is in flight, the parser's contexts, the outbound queue and the reader are as before,
and the only actions are those of `close()` (the close event of an active session, socket
shutdown, socket close): no read or write is started, no handler is called, no message
event is delivered and no frame is enqueued or popped. -/
theorem C15_transport_errors_terminal (e : collaborators) (ev : event) (op : async_op)
    (c : base_connection)
    (herr : event_error ev = true) (hm : completes ev op = true)
    (hs : c.ws_handshake_ = true → ∃ h, c.ws_helper_ = some h) :
    ∃ c1, complete e ev op c = some c1 ∧ complete e ev op c = close (at_completion ev c) ∧
      c1.pending = c.pending ∧ c1.parser_contexts = c.parser_contexts ∧
      c1.ws_handshake_ = false ∧ write_queue c1 = write_queue c ∧ reader c1 = reader c ∧
      c1.trace = c.trace ++
        ((match c.ws_handshake_, c.ws_helper_ with
          | true, some h => [effect.emit_close h.websocket_ true]
          | _, _ => []) ++ [effect.socket_shutdown, effect.socket_close]) := by
  have hclose : ∀ c' : base_connection, c'.pending = c.pending →
      c'.parser_contexts = c.parser_contexts → c'.ws_handshake_ = c.ws_handshake_ →
      c'.trace = c.trace → write_queue c' = write_queue c → reader c' = reader c →
      c'.ws_helper_.map (fun h => h.websocket_) = c.ws_helper_.map (fun h => h.websocket_) →
      ∃ c1, close c' = some c1 ∧
        c1.pending = c.pending ∧ c1.parser_contexts = c.parser_contexts ∧
        c1.ws_handshake_ = false ∧ write_queue c1 = write_queue c ∧ reader c1 = reader c ∧
        c1.trace = c.trace ++
          ((match c.ws_handshake_, c.ws_helper_ with
            | true, some h => [effect.emit_close h.websocket_ true]
            | _, _ => []) ++ [effect.socket_shutdown, effect.socket_close]) := by
    intro c' hp hpc hh ht hq hrd hws
    cases hflag : c.ws_handshake_ with
    | false =>
      rw [close_of_not_handshake c' (hh.trans hflag)]
      exact ⟨_, rfl, hp, hpc, hh.trans hflag, hq, hrd, by simp [ht]⟩
    | true =>
      obtain ⟨h, hc⟩ := hs hflag
      cases hc' : c'.ws_helper_ with
      | none => rw [hc', hc] at hws; simp at hws
      | some h' =>
        rw [hc', hc] at hws
        simp only [Option.map_some', Option.some.injEq] at hws
        rw [close_eq c' h' hc']
        refine ⟨_, rfl, hp, hpc, rfl, ?_, ?_, ?_⟩
        · rw [← hq]; simp [write_queue, hc']
        · rw [← hrd]; simp [reader, hc']
        · simp [ht, hh, hflag, hc, hws]
  cases ev with
  | send f => simp [event_error] at herr
  | close_call => simp [event_error] at herr
  | read_some_done code parse_code contexts =>
    simp only [event_error] at herr
    subst herr
    cases op <;> simp only [completes, Bool.false_eq_true] at hm
    obtain ⟨c1, h1, hrest⟩ := hclose c rfl rfl rfl rfl rfl rfl rfl
    exact ⟨c1, by simpa [complete, do_read_some_completion] using h1,
      by simp [complete, do_read_some_completion, at_completion], hrest⟩
  | write_done code =>
    simp only [event_error] at herr
    subst herr
    cases op <;> simp only [completes, Bool.false_eq_true] at hm
    obtain ⟨c1, h1, hrest⟩ := hclose c rfl rfl rfl rfl rfl rfl rfl
    exact ⟨c1, by simpa [complete, reply_completion] using h1,
      by simp [complete, reply_completion, at_completion], hrest⟩
  | handshake_done code =>
    simp only [event_error] at herr
    subst herr
    cases op <;> simp only [completes, Bool.false_eq_true] at hm
    obtain ⟨c1, h1, hrest⟩ := hclose c rfl rfl rfl rfl rfl rfl rfl
    exact ⟨c1, by simpa [complete, do_handshake_completion] using h1,
      by simp [complete, do_handshake_completion, at_completion], hrest⟩
  | read_ws_done code data =>
    simp only [event_error] at herr
    subst herr
    obtain ⟨c1, h1, hrest⟩ := hclose c rfl rfl rfl rfl rfl rfl rfl
    cases op <;> simp only [completes, Bool.false_eq_true] at hm
    · exact ⟨c1, by simpa [complete, do_read_ws_header_completion] using h1,
        by simp [complete, do_read_ws_header_completion, at_completion], hrest⟩
    · exact ⟨c1, by simpa [complete, do_read_ws_length_and_mask_completion] using h1,
        by simp [complete, do_read_ws_length_and_mask_completion, at_completion], hrest⟩
    · exact ⟨c1, by simpa [complete, do_read_ws_payload_completion] using h1,
        by simp [complete, do_read_ws_payload_completion, at_completion], hrest⟩
  | write_ws_done code n =>
    simp only [event_error] at herr
    subst herr
    cases op <;> simp only [completes, Bool.false_eq_true] at hm
    cases hc : c.ws_helper_ with
    | none =>
      obtain ⟨c1, h1, hrest⟩ := hclose c rfl rfl rfl rfl rfl rfl rfl
      rw [hc] at hrest
      exact ⟨c1, by simpa [complete, do_write_ws_completion, hc] using h1,
        by simp [complete, do_write_ws_completion, hc, at_completion], hrest⟩
    | some h =>
      obtain ⟨c1, h1, hrest⟩ := hclose
        { c with ws_helper_ := some { h with buffer_ := h.buffer_.drop n } } rfl rfl rfl rfl
        (by simp [write_queue, hc]) (by simp [reader, hc]) (by simp [hc])
      rw [hc] at hrest
      exact ⟨c1, by simpa [complete, do_write_ws_completion, hc] using h1,
        by simp [complete, do_write_ws_completion, hc, at_completion], hrest⟩

/-- C15 at a failed frame write on a busy session: the payload read stays in flight, the
queue keeps both frames, the session consumer gets its close event. -/
theorem C15_witness :
    (event_error (event.write_ws_done true 1) = true ∧
      completes (event.write_ws_done true 1) (async_op.write_ws [129, 1, 7]) = true ∧
      (busy_session.ws_handshake_ = true → ∃ h, busy_session.ws_helper_ = some h)) ∧
    ∃ c1, complete plain (event.write_ws_done true 1) (async_op.write_ws [129, 1, 7])
          busy_session = some c1 ∧
      complete plain (event.write_ws_done true 1) (async_op.write_ws [129, 1, 7]) busy_session
        = close (at_completion (event.write_ws_done true 1) busy_session) ∧
      c1.pending = busy_session.pending ∧ c1.parser_contexts = busy_session.parser_contexts ∧
      c1.ws_handshake_ = false ∧ write_queue c1 = write_queue busy_session ∧
      reader c1 = reader busy_session ∧
      c1.trace = busy_session.trace ++
        ((match busy_session.ws_handshake_, busy_session.ws_helper_ with
          | true, some h => [effect.emit_close h.websocket_ true]
          | _, _ => []) ++ [effect.socket_shutdown, effect.socket_close]) :=
  ⟨⟨rfl, rfl, fun _ => ⟨_, rfl⟩⟩,
    C15_transport_errors_terminal plain (event.write_ws_done true 1)
      (async_op.write_ws [129, 1, 7]) busy_session rfl rfl (fun _ => ⟨_, rfl⟩)⟩

/-! ### Frames without an action of their own -/

/-- C16 (pong and unrecognised opcodes cause no action), evaluated on the code: a masked
pong frame (key 0) with the one-byte payload `x` (120) is read; its payload phase appends
`x` to the accumulation buffer and `handle_ws()` does not remove it.  The text frame `hi`
(fin set) that follows then completes a message whose payload is `xhi`: it contains the
pong frame's payload byte. -/
theorem C16_pong_payload_joins_next_message (e : collaborators) :
    ∃ c1 c2,
      ws_feed e 3 (ws_session [] []) [0x8a, 0x81, 0, 0, 0, 0, 120] = some (c1, []) ∧
      c1.ws_helper_.map (fun h => h.ws_reader_.payload_buffer) = some [120] ∧
      c1.pending = [async_op.read_ws_header] ∧
      ws_feed e 3 c1 [0x81, 0x82, 0, 0, 0, 0, 104, 105] = some (c2, []) ∧
      messages c2.trace = [[120, 104, 105]] := by
  refine ⟨_, _, rfl, rfl, rfl, rfl, rfl⟩

/-- What does hold of C16: for every reader state, `handle_ws()` on a frame whose opcode
is pong or any value without a case of its own leaves the session (accumulation buffer,
outbound queue, reader) as it is, records no action but the start of the next header
read. -/
theorem handle_ws_no_action (c : base_connection) (h : ws_helper)
    (hc : c.ws_helper_ = some h)
    (h0 : h.ws_reader_.opcode ≠ ws_opcode.continuation)
    (h1 : h.ws_reader_.opcode ≠ ws_opcode.text) (h2 : h.ws_reader_.opcode ≠ ws_opcode.binary)
    (h8 : h.ws_reader_.opcode ≠ ws_opcode.close) (h9 : h.ws_reader_.opcode ≠ ws_opcode.ping) :
    handle_ws c = some (c.async async_op.read_ws_header) := by
  simp [handle_ws, hc, h0, h1, h2, h8, h9, do_read_ws_header]

/-! ### Frame header decoding -/

theorem and_128_ne_zero (b : Nat) : (b &&& 0x80 != 0) = b.testBit 7 := by
  cases hb : b.testBit 7 with
  | true =>
    have h1 : (b &&& 0x80).testBit 7 = true := by
      rw [Nat.testBit_and, hb]; rfl
    have h2 : b &&& 0x80 ≠ 0 := by
      intro h0
      rw [h0] at h1
      simp at h1
    simpa using h2
  | false =>
    have h0 : b &&& 0x80 = 0 := by
      apply Nat.eq_of_testBit_eq
      intro i
      rw [Nat.testBit_and, Nat.zero_testBit]
      by_cases hi : i = 7
      · subst hi; simp [hb]
      · have : (0x80 : Nat).testBit i = false := by
          have h := @Nat.testBit_two_pow_of_ne 7 i (fun h => hi h.symm)
          simpa using h
        simp [this]
    simp [h0]

theorem and_15 (b : Nat) : b &&& 0xf = b % 16 := Nat.and_pow_two_sub_one_eq_mod b 4

theorem and_127 (b : Nat) : b &&& 0x7f = b % 128 := Nat.and_pow_two_sub_one_eq_mod b 7

theorem read_ws_header_data_eq (b0 b1 : Nat) (r : ws_reader) :
    read_ws_header_data [b0, b1] r
      = { r with
          header := b0 :: b1 :: r.header.drop 2
          fin := b0.testBit 7
          opcode := b0 % 16
          has_mask := b1.testBit 7
          length := b1 % 128 } := by
  simp [read_ws_header_data, write_at, and_128_ne_zero, and_15, and_127]

theorem step_header (e : collaborators) (c : base_connection) (h : ws_helper) (b0 b1 : Nat)
    (hp : c.pending = [async_op.read_ws_header]) (hc : c.ws_helper_ = some h) :
    step e (event.read_ws_done false [b0, b1]) c
      = do_read_ws_length_and_mask (extension_size b1)
          { c with
            pending := []
            ws_helper_ := some { h with ws_reader_ := read_ws_header_data [b0, b1] h.ws_reader_ } } := by
  have hstep : step e (event.read_ws_done false [b0, b1]) c
      = do_read_ws_header_completion false [b0, b1] { c with pending := [] } := by
    simp [step, hp, take_op, completes, complete]
  rw [hstep]
  simp only [do_read_ws_header_completion, Bool.false_eq_true, if_false, hc]
  have hlen : (read_ws_header_data [b0, b1] h.ws_reader_).length = b1 % 128 := by
    rw [read_ws_header_data_eq]
  simp only [extension_size]
  by_cases h126 : b1 % 128 = 126
  · rw [if_pos (hlen.trans h126), if_pos h126]
  · by_cases h127 : b1 % 128 = 127
    · rw [if_neg (by rw [hlen]; exact h126), if_pos (hlen.trans h127), if_neg h126, if_pos h127]
    · rw [if_neg (by rw [hlen]; exact h126), if_neg (by rw [hlen]; exact h127), if_neg h126,
        if_neg h127]

theorem write_at_zero_full (buf data : List Nat) (h : data.length = buf.length) :
    write_at buf 0 data = data := by
  simp [write_at, h]

theorem extension_size_cases (b1 : Nat) :
    (extension_size b1 = 0 ∧ b1 % 128 ≠ 126 ∧ b1 % 128 ≠ 127) ∨
    (extension_size b1 = 2 ∧ b1 % 128 = 126) ∨ (extension_size b1 = 8 ∧ b1 % 128 = 127) := by
  unfold extension_size
  by_cases h126 : b1 % 128 = 126
  · exact Or.inr (Or.inl ⟨by simp [h126], h126⟩)
  · by_cases h127 : b1 % 128 = 127
    · exact Or.inr (Or.inr ⟨by simp [h127], h127⟩)
    · exact Or.inl ⟨by simp [h126, h127], h126, h127⟩

theorem length_and_mask_data_eq (b0 b1 : Nat) (ext key : List Nat) (r : ws_reader)
    (hext : ext.length = extension_size b1) (hkey : key.length = mask_size b1)
    (hz : extension_size b1 + mask_size b1 ≠ 0) :
    read_ws_length_and_mask_data (extension_size b1) (ext ++ key)
        { r with
          header := b0 :: b1 :: r.header.drop 2
          fin := b0.testBit 7
          opcode := b0 % 16
          has_mask := b1.testBit 7
          length := b1 % 128
          length_mask_buffer := resize (extension_size b1 + mask_size b1) r.length_mask_buffer }
      = decoded_header b0 b1 ext key r := by
  have hw : write_at (resize (extension_size b1 + mask_size b1) r.length_mask_buffer) 0
      (ext ++ key) = ext ++ key := by
    apply write_at_zero_full
    simp [resize_length, hext, hkey]
  simp only [read_ws_length_and_mask_data, hw, decoded_header, hz, if_false]
  have htake : List.take (extension_size b1) (ext ++ key) = ext := List.take_left' hext
  have hdrop : List.drop (extension_size b1) (ext ++ key) = key := List.drop_left' hext
  cases hm : b1.testBit 7 with
  | true =>
    have hk4 : key.length = 4 := by simpa [mask_size, hm] using hkey
    have hkt : List.take 4 key = key := List.take_of_length_le (by omega)
    rcases extension_size_cases b1 with ⟨hk, _, _⟩ | ⟨hk, _⟩ | ⟨hk, _⟩
    · have he : ext = [] := List.length_eq_zero.mp (by rw [hext, hk])
      simp [hk, he, hkt]
    · rw [hk] at htake hdrop
      simp [hk, htake, hdrop, hkt]
    · rw [hk] at htake hdrop
      simp [hk, htake, hdrop, hkt]
  | false =>
    have hk0 : key = [] := List.length_eq_zero.mp (by simpa [mask_size, hm] using hkey)
    rcases extension_size_cases b1 with ⟨hk, _, _⟩ | ⟨hk, _⟩ | ⟨hk, _⟩
    · simp [mask_size, hm, hk] at hz
    · rw [hk] at htake
      simp [hk, htake]
    · rw [hk] at htake
      simp [hk, htake]

theorem header_data_eq_decoded (b0 b1 : Nat) (r : ws_reader)
    (hz : extension_size b1 + mask_size b1 = 0) :
    read_ws_header_data [b0, b1] r = decoded_header b0 b1 [] [] r := by
  have hk : extension_size b1 = 0 := by omega
  have hm : b1.testBit 7 = false := by
    cases h : b1.testBit 7 with
    | false => rfl
    | true => simp [mask_size, h] at hz
  have hm0 : mask_size b1 = 0 := by omega
  simp [read_ws_header_data_eq, decoded_header, hk, hm, hm0]

/-- C17 (frame header decoding): for every reader that waits for a header, every two header
bytes `b0`, `b1` and the bytes that follow (`ext` of `e` bytes, `key` of `m` bytes, then
`rest`), where `e` is 0, 2 or 8 as the base length `b1 mod 128` is at most 125, 126 or 127
and `m` is 4 if bit 7 of `b1` is set and 0 otherwise: the reader consumes exactly the
`2 + e + m` header bytes (one exact read of `e + m` bytes after the header, none if
`e + m = 0`), and reaches the payload phase, or `handle_ws()` directly if `e + m = 0`,
with fin = bit 7 of `b0`, opcode = `b0 mod 16`, mask-present = bit 7 of `b1`, declared
length = the base length if `e = 0` and the big-endian value of `ext` otherwise, and, when
a mask is present, mask key = `key`. -/
theorem C17_frame_header_decoding (e : collaborators) (c : base_connection) (h : ws_helper)
    (b0 b1 : Nat) (ext key rest : List Nat)
    (hp : c.pending = [async_op.read_ws_header]) (hc : c.ws_helper_ = some h)
    (hext : ext.length = extension_size b1) (hkey : key.length = mask_size b1) :
    ws_feed e (if extension_size b1 + mask_size b1 = 0 then 1 else 2) c
        (b0 :: b1 :: (ext ++ key ++ rest))
      = if extension_size b1 + mask_size b1 = 0 then
          (handle_ws { c with
              pending := []
              ws_helper_ := some { h with
                ws_reader_ := decoded_header b0 b1 ext key h.ws_reader_ } }).map
            (fun c3 => (c3, rest))
        else
          (do_read_ws_payload { c with
              pending := []
              trace := c.trace ++ [effect.start (async_op.read_ws_length_and_mask
                (extension_size b1) (extension_size b1 + mask_size b1))]
              ws_helper_ := some { h with
                ws_reader_ := decoded_header b0 b1 ext key h.ws_reader_ } }).map
            (fun c3 => (c3, rest)) := by
  have hmask : (read_ws_header_data [b0, b1] h.ws_reader_).has_mask = b1.testBit 7 := by
    rw [read_ws_header_data_eq]
  have hlm : ∀ c' : base_connection, ∀ h' : ws_helper, c'.ws_helper_ = some h' →
      h'.ws_reader_.has_mask = b1.testBit 7 →
      do_read_ws_length_and_mask (extension_size b1) c'
        = if extension_size b1 + mask_size b1 = 0 then handle_ws c'
          else some ({ c' with ws_helper_ := some { h' with ws_reader_ := { h'.ws_reader_ with length_mask_buffer := resize (extension_size b1 + mask_size b1) h'.ws_reader_.length_mask_buffer } } }.async
            (async_op.read_ws_length_and_mask (extension_size b1)
              (extension_size b1 + mask_size b1))) := by
    intro c' h' hc' hm'
    simp only [do_read_ws_length_and_mask, hc', hm', mask_size]
  by_cases hz : extension_size b1 + mask_size b1 = 0
  · have he : ext = [] := List.length_eq_zero.mp (by omega)
    have hk : key = [] := List.length_eq_zero.mp (by omega)
    subst he hk
    simp only [hz, if_true, List.append_nil, List.nil_append]
    simp only [ws_feed, hp, ws_read_size, List.length_cons]
    rw [if_neg (by omega)]
    simp only [List.take_succ_cons, List.take_zero, List.drop_succ_cons, List.drop_zero]
    rw [step_header e c h b0 b1 hp hc, hlm _ _ rfl hmask, if_pos hz,
      header_data_eq_decoded b0 b1 h.ws_reader_ hz]
    generalize handle_ws _ = r
    cases r <;> rfl
  · simp only [hz, if_false]
    rw [ws_feed_succ e 1 c _ (b0 :: b1 :: (ext ++ key ++ rest)) 2 (by rw [hp]; rfl) (by simp)
      (by
        simp only [List.take_succ_cons, List.take_zero]
        rw [step_header e c h b0 b1 hp hc, hlm _ _ rfl hmask, if_neg hz])]
    simp only [List.drop_succ_cons, List.drop_zero]
    have hlen : (ext ++ key).length = extension_size b1 + mask_size b1 := by
      simp [hext, hkey]
    simp only [ws_feed, base_connection.async, ws_read_size, List.nil_append]
    rw [if_neg (by simp [hext, hkey])]
    rw [List.take_left' hlen, List.drop_left' hlen]
    simp only [step, take_op, completes, hlen, beq_self_eq_true, Bool.or_true, if_true, complete,
      do_read_ws_length_and_mask_completion, Bool.false_eq_true, if_false]
    simp only [read_ws_header_data_eq]
    rw [length_and_mask_data_eq b0 b1 ext key h.ws_reader_ hext hkey hz]
    generalize do_read_ws_payload _ = r
    cases r <;> rfl

/-- C17 at the header `81 fe` (text, fin, masked, base length 126), extended length
`01 00` and key `01 02 03 04`: declared length 256. -/
theorem C17_witness :
    ((ws_session [] []).pending = [async_op.read_ws_header] ∧
      (ws_session [] []).ws_helper_ = some {} ∧
      [1, 0].length = extension_size 0xfe ∧ [1, 2, 3, 4].length = mask_size 0xfe) ∧
    decoded_header 0x81 0xfe [1, 0] [1, 2, 3, 4] {}
      = { header := [0x81, 0xfe], fin := true, opcode := 1, has_mask := true, length := 256,
          length_mask_buffer := [1, 0, 1, 2, 3, 4], mask := [1, 2, 3, 4] } ∧
    ws_feed plain (if extension_size 0xfe + mask_size 0xfe = 0 then 1 else 2) (ws_session [] [])
        (0x81 :: 0xfe :: ([1, 0] ++ [1, 2, 3, 4] ++ [9]))
      = if extension_size 0xfe + mask_size 0xfe = 0 then
          (handle_ws { ws_session [] [] with
              pending := []
              ws_helper_ := some { ({} : ws_helper) with
                ws_reader_ := decoded_header 0x81 0xfe [1, 0] [1, 2, 3, 4] ({} : ws_helper).ws_reader_ } }).map
            (fun c3 => (c3, [9]))
        else
          (do_read_ws_payload { ws_session [] [] with
              pending := []
              trace := (ws_session [] []).trace ++ [effect.start (async_op.read_ws_length_and_mask
                (extension_size 0xfe) (extension_size 0xfe + mask_size 0xfe))]
              ws_helper_ := some { ({} : ws_helper) with
                ws_reader_ := decoded_header 0x81 0xfe [1, 0] [1, 2, 3, 4] ({} : ws_helper).ws_reader_ } }).map
            (fun c3 => (c3, [9])) :=
  ⟨⟨rfl, rfl, by decide, by decide⟩, by decide,
    C17_frame_header_decoding plain (ws_session [] []) {} 0x81 0xfe [1, 0] [1, 2, 3, 4] [9]
      rfl rfl (by decide) (by decide)⟩

/-! ### Frames sent before the handshake completes -/

/-- C18 (no stranded outbound frames), evaluated on the code: a connection is started, an
upgrade request is dispatched, and a frame is sent while the response write is still in
flight: `send_ws_frame` only enqueues it, the handshake not being complete.  The write
completes: the handshake flag is set and the header read is started, but no write of the
queued frame.  A second frame is sent: the queue then has two entries, so again no write is
started.  The state is reachable, the handshake is complete, the queue holds both frames,
and no write is in flight or was ever started. -/
theorem C18_early_frames_are_stranded :
    ∃ c0 c, run (accepted false) = some c0 ∧ steps plain early_send_schedule c0 = some c ∧
      reachable plain c ∧
      c.ws_handshake_ = true ∧
      write_queue c = some [{ opcode := ws_opcode.text, payload := [7] },
                            { opcode := ws_opcode.text, payload := [8] }] ∧
      c.pending = [async_op.read_ws_header] ∧
      ws_writes_in_flight c = 0 ∧ ws_writes c.trace = [] := by
  refine ⟨_, _, rfl, rfl, ⟨false, early_send_schedule, _, rfl, rfl⟩, rfl, rfl, rfl, rfl, rfl⟩

/-! ### The lifecycle events of the session -/

theorem lifecycle_nil : lifecycle [] = [] := rfl

theorem lifecycle_append (s t : List effect) : lifecycle (s ++ t) = lifecycle s ++ lifecycle t := by
  simp [lifecycle, List.filter_append]

theorem lifecycle_cons (a : effect) (t : List effect) :
    lifecycle (a :: t)
      = (match a with
          | effect.emit_open w b => [effect.emit_open w b]
          | effect.emit_close w b => [effect.emit_close w b]
          | _ => []) ++ lifecycle t := by
  cases a <;> rfl

theorem quiet_refl (c : base_connection) : quiet c c := ⟨rfl, rfl, rfl⟩

theorem quiet_trans {c c1 c2 : base_connection} (h1 : quiet c c1) (h2 : quiet c1 c2) :
    quiet c c2 :=
  ⟨h2.1.trans h1.1, h2.2.1.trans h1.2.1, h2.2.2.trans h1.2.2⟩

theorem ws_life_quiet_left {c c1 c2 : base_connection} (h1 : quiet c c1) (h2 : ws_life c1 c2) :
    ws_life c c2 := by
  rcases h2 with h2 | ⟨hf, hf2, hb, h, hc, hl⟩
  · exact Or.inl (quiet_trans h1 h2)
  · have hbc : bound_websocket c = some h.websocket_ := by
      rw [← h1.2.1]; simp [bound_websocket, hc]
    cases hcc : c.ws_helper_ with
    | none => simp [bound_websocket, hcc] at hbc
    | some h0 =>
      have hw : h0.websocket_ = h.websocket_ := by simpa [bound_websocket, hcc] using hbc
      exact Or.inr ⟨h1.1 ▸ hf, hf2, hb.trans h1.2.1, h0, hcc, by rw [hl, h1.2.2, hw]⟩

theorem ws_life_quiet_right {c c1 c2 : base_connection} (h1 : ws_life c c1) (h2 : quiet c1 c2) :
    ws_life c c2 := by
  rcases h1 with h1 | ⟨hf, hf1, hb, h, hc, hl⟩
  · exact Or.inl (quiet_trans h1 h2)
  · exact Or.inr ⟨hf, h2.1.trans hf1, h2.2.1.trans hb, h, hc, h2.2.2.trans hl⟩

theorem quiet_async (c : base_connection) (op : async_op) : quiet c (c.async op) :=
  ⟨rfl, rfl, by simp [base_connection.async, lifecycle_append, lifecycle_cons, lifecycle_nil]⟩

theorem close_life {c c1 : base_connection} (h : close c = some c1) : ws_life c c1 := by
  cases hf : c.ws_handshake_ with
  | false =>
    rw [close_of_not_handshake c hf] at h
    simp only [Option.some.injEq] at h
    subst h
    exact Or.inl ⟨rfl, rfl, by simp [lifecycle_append, lifecycle_cons, lifecycle_nil]⟩
  | true =>
    cases hc : c.ws_helper_ with
    | none => simp [close, hf, hc] at h
    | some hh =>
      rw [close_eq c hh hc] at h
      simp only [Option.some.injEq] at h
      subst h
      exact Or.inr ⟨hf, rfl, rfl, hh, hc,
        by simp [hf, lifecycle_append, lifecycle_cons, lifecycle_nil]⟩

theorem do_read_ws_header_life {c c1 : base_connection} (h : do_read_ws_header c = some c1) :
    quiet c c1 := by
  unfold do_read_ws_header at h
  split at h
  · simp at h
  · simp only [Option.some.injEq] at h
    subst h
    exact quiet_async c _

theorem do_send_ws_frame_life {c c1 : base_connection} (h : do_send_ws_frame c = some c1) :
    quiet c c1 := by
  unfold do_send_ws_frame at h
  cases hc : c.ws_helper_ with
  | none => simp [hc] at h
  | some hh =>
    simp only [hc] at h
    split at h
    · simp at h
    · simp only [do_write_ws, Option.some.injEq] at h
      subst h
      exact ⟨rfl, by simp [bound_websocket, hc, base_connection.async],
        by simp [base_connection.async, lifecycle_append, lifecycle_cons, lifecycle_nil]⟩

theorem send_ws_frame_life {f : ws_frame} {c c1 : base_connection}
    (h : send_ws_frame f c = some c1) : quiet c c1 := by
  unfold send_ws_frame at h
  cases hc : c.ws_helper_ with
  | none => simp [hc] at h
  | some hh =>
    simp only [hc] at h
    have hq : quiet c ({ c with ws_helper_ := some { hh with write_queue_ := hh.write_queue_ ++ [f] } }.emit (effect.enqueue f)) :=
      ⟨rfl, by simp [bound_websocket, hc, base_connection.emit],
        by simp [base_connection.emit, lifecycle_append, lifecycle_cons, lifecycle_nil]⟩
    split at h
    · exact quiet_trans hq (do_send_ws_frame_life h)
    · simp only [Option.some.injEq] at h
      subst h
      exact hq

theorem quiet_set_helper (c : base_connection) (hh h1 : ws_helper) (hc : c.ws_helper_ = some hh)
    (hw : h1.websocket_ = hh.websocket_) : quiet c { c with ws_helper_ := some h1 } :=
  ⟨rfl, by simp [bound_websocket, hc, hw], rfl⟩

theorem handle_ws_life {c c1 : base_connection} (h : handle_ws c = some c1) : ws_life c c1 := by
  unfold handle_ws at h
  cases hc : c.ws_helper_ with
  | none => simp [hc] at h
  | some hh =>
    simp only [hc] at h
    split at h
    · exact Or.inl (quiet_trans (quiet_set_helper c hh _ hc (by rfl)) (do_read_ws_header_life h))
    · split at h
      · split at h
        · refine Or.inl (quiet_trans ?_ (do_read_ws_header_life h))
          exact ⟨rfl, by simp [bound_websocket, hc, base_connection.emit],
            by simp [base_connection.emit, lifecycle_append, lifecycle_cons, lifecycle_nil]⟩
        · exact Or.inl (quiet_trans (quiet_set_helper c hh _ hc (by rfl)) (do_read_ws_header_life h))
      · split at h
        · exact close_life h
        · split at h
          · cases hp : reply_ws_pong c with
            | none => simp [hp] at h
            | some c2 =>
              rw [hp] at h
              exact Or.inl (quiet_trans (send_ws_frame_life hp) (do_read_ws_header_life h))
          · exact Or.inl (do_read_ws_header_life h)

theorem do_read_ws_payload_life {c c1 : base_connection} (h : do_read_ws_payload c = some c1) :
    quiet c c1 := by
  unfold do_read_ws_payload at h
  cases hc : c.ws_helper_ with
  | none => simp [hc] at h
  | some hh =>
    simp only [hc] at h
    split at h
    · simp at h
    · split at h
      · simp at h
      · simp only [Option.some.injEq] at h
        subst h
        exact quiet_trans (quiet_set_helper c hh _ hc (by rfl)) (quiet_async _ _)

theorem do_read_ws_payload_completion_life {offset : Nat} {code : Bool} {data : List Nat}
    {c c1 : base_connection} (h : do_read_ws_payload_completion offset code data c = some c1) :
    ws_life c c1 := by
  unfold do_read_ws_payload_completion at h
  split at h
  · exact close_life h
  · cases hc : c.ws_helper_ with
    | none => simp [hc] at h
    | some hh =>
      simp only [hc] at h
      exact ws_life_quiet_left (quiet_set_helper c hh _ hc (by rfl)) (handle_ws_life h)

theorem do_read_ws_length_and_mask_completion_life {bytes : Nat} {code : Bool}
    {data : List Nat} {c c1 : base_connection}
    (h : do_read_ws_length_and_mask_completion bytes code data c = some c1) :
    ws_life c c1 := by
  unfold do_read_ws_length_and_mask_completion at h
  split at h
  · exact close_life h
  · cases hc : c.ws_helper_ with
    | none => simp [hc] at h
    | some hh =>
      simp only [hc] at h
      exact Or.inl (quiet_trans (quiet_set_helper c hh _ hc (by rfl)) (do_read_ws_payload_life h))

theorem do_read_ws_length_and_mask_life {bytes : Nat} {c c1 : base_connection}
    (h : do_read_ws_length_and_mask bytes c = some c1) : ws_life c c1 := by
  unfold do_read_ws_length_and_mask at h
  cases hc : c.ws_helper_ with
  | none => simp [hc] at h
  | some hh =>
    simp only [hc] at h
    by_cases hl : bytes + (if hh.ws_reader_.has_mask = true then 4 else 0) = 0
    · rw [if_pos hl] at h
      exact handle_ws_life h
    · rw [if_neg hl] at h
      simp only [Option.some.injEq] at h
      subst h
      exact Or.inl (quiet_trans (quiet_set_helper c hh _ hc (by rfl)) (quiet_async _ _))

theorem do_read_ws_header_completion_life {code : Bool} {data : List Nat}
    {c c1 : base_connection} (h : do_read_ws_header_completion code data c = some c1) :
    ws_life c c1 := by
  unfold do_read_ws_header_completion at h
  split at h
  · exact close_life h
  · cases hc : c.ws_helper_ with
    | none => simp [hc] at h
    | some hh =>
      simp only [hc] at h
      split at h
      · exact ws_life_quiet_left (quiet_set_helper c hh _ hc (by rfl))
          (do_read_ws_length_and_mask_life h)
      · split at h
        · exact ws_life_quiet_left (quiet_set_helper c hh _ hc (by rfl))
            (do_read_ws_length_and_mask_life h)
        · exact ws_life_quiet_left (quiet_set_helper c hh _ hc (by rfl))
            (do_read_ws_length_and_mask_life h)

theorem do_write_ws_completion_life {code : Bool} {n : Nat} {c c1 : base_connection}
    (h : do_write_ws_completion code n c = some c1) : ws_life c c1 := by
  unfold do_write_ws_completion at h
  cases hc : c.ws_helper_ with
  | none =>
    simp only [hc] at h
    split at h
    · exact close_life h
    · simp at h
  | some hh =>
    simp only [hc] at h
    split at h
    · exact ws_life_quiet_left (quiet_set_helper c hh _ hc (by rfl)) (close_life h)
    · split at h
      · simp at h
      · split at h
        · exact Or.inl (quiet_trans (quiet_set_helper c hh _ hc (by rfl)) (do_send_ws_frame_life h))
        · simp only [Option.some.injEq] at h
          subst h
          exact Or.inl (quiet_set_helper c hh _ hc (by rfl))

theorem complete_ws_life (e : collaborators) (ev : event) (op : async_op)
    (c c1 : base_connection) (hop : is_ws_op op = true) (h : complete e ev op c = some c1) :
    ws_life c c1 := by
  cases ev <;> cases op <;>
    simp only [complete, is_ws_op, Bool.false_eq_true, reduceCtorEq] at h hop <;>
    first
    | exact do_read_ws_header_completion_life h
    | exact do_read_ws_length_and_mask_completion_life h
    | exact do_read_ws_payload_completion_life h
    | exact do_write_ws_completion_life h

theorem ws_only_step_life (e : collaborators) (ev : event) (c c1 : base_connection)
    (hc : ws_only c) (h : step e ev c = some c1) : ws_life c c1 := by
  cases ev with
  | send f => exact Or.inl (send_ws_frame_life h)
  | close_call => exact close_life h
  | _ =>
    simp only [step] at h
    split at h
    · simp at h
    · rename_i op others htake
      obtain ⟨hmem, _⟩ := take_op_mem _ _ _ _ htake
      exact ws_life_quiet_left (by exact ⟨rfl, rfl, rfl⟩)
        (complete_ws_life e _ op _ c1 (hc op hmem) h)

theorem lifecycle_inv_of_ws_life {c c1 : base_connection} (hI : lifecycle_inv c)
    (h : ws_life c c1) : lifecycle_inv c1 := by
  rcases h with ⟨hf, hb, hl⟩ | ⟨hf, hf1, hb, hh, hc, hl⟩
  · rcases hI with ⟨h1, h2⟩ | ⟨w, h1, h2, h3⟩ | ⟨w, h1, h2⟩
    · exact Or.inl ⟨hl.trans h1, hf.trans h2⟩
    · exact Or.inr (Or.inl ⟨w, hl.trans h1, hf.trans h2, hb.trans h3⟩)
    · exact Or.inr (Or.inr ⟨w, hl.trans h1, hf.trans h2⟩)
  · rcases hI with ⟨_, h2⟩ | ⟨w, h1, _, h3⟩ | ⟨w, _, h2⟩
    · rw [h2] at hf; cases hf
    · have hw : hh.websocket_ = w := by simpa [bound_websocket, hc] using h3
      exact Or.inr (Or.inr ⟨w, by rw [hl, h1, hw]; rfl, hf1⟩)
    · rw [h2] at hf; cases hf

theorem lifecycle_handler_calls (ctxs : List context) :
    lifecycle (ctxs.map effect.handler_call) = [] := by
  induction ctxs with
  | nil => rfl
  | cons a t ih => simp [lifecycle_cons, ih]

theorem do_read_life {c c1 : base_connection} (h : do_read c = some c1) : quiet c c1 := by
  simp only [do_read, do_read_some, do_handshake] at h
  split at h
  · split at h <;>
      (simp only [Option.some.injEq] at h; subst h; exact quiet_async _ _)
  · simp only [Option.some.injEq] at h
    subst h
    exact quiet_async _ _

theorem close_life_of_not_handshake {c c1 : base_connection} (hf : c.ws_handshake_ = false)
    (h : close c = some c1) :
    c1.ws_handshake_ = false ∧ lifecycle c1.trace = lifecycle c.trace := by
  rw [close_of_not_handshake c hf] at h
  simp only [Option.some.injEq] at h
  subst h
  exact ⟨hf, by simp [lifecycle_append, lifecycle_cons, lifecycle_nil]⟩

theorem ws_life_of_not_handshake {c c1 : base_connection} (hf : c.ws_handshake_ = false)
    (h : ws_life c c1) :
    c1.ws_handshake_ = false ∧ lifecycle c1.trace = lifecycle c.trace := by
  rcases h with ⟨h1, _, h3⟩ | ⟨h1, _⟩
  · exact ⟨h1.trans hf, h3⟩
  · rw [hf] at h1
    cases h1

theorem do_read_some_completion_life (e : collaborators) (code : Bool) (parse_code : Int)
    (ctxs : List context) {c c1 : base_connection} (hf : c.ws_handshake_ = false)
    (h : do_read_some_completion e code parse_code ctxs c = some c1) :
    c1.ws_handshake_ = false ∧ lifecycle c1.trace = lifecycle c.trace := by
  unfold do_read_some_completion at h
  split at h
  · exact close_life_of_not_handshake hf h
  · simp only at h
    split at h
    · have hl := handle_and_reply_fold e ctxs
        { conn := { c with parser_contexts := ctxs } } [] rfl rfl
      simp only [handle_and_reply, reply, hl] at h
      split at h <;>
        (simp only [Option.some.injEq] at h; subst h
         simp [base_connection.async, hf, lifecycle_append, lifecycle_cons, lifecycle_nil,
           lifecycle_handler_calls])
    · split at h
      · simp only [reply_error, reply, Option.some.injEq] at h
        subst h
        simp [base_connection.async, hf, lifecycle_append, lifecycle_cons, lifecycle_nil]
      · have hq := do_read_life h
        exact ⟨hq.1.trans hf, hq.2.2⟩

theorem reply_completion_life (is_close code : Bool) {c c1 : base_connection}
    (hf : c.ws_handshake_ = false) (h : reply_completion is_close code c = some c1) :
    (c1.ws_handshake_ = false ∧ lifecycle c1.trace = lifecycle c.trace) ∨
    (∃ w, lifecycle c1.trace = lifecycle c.trace ++ [effect.emit_open w true] ∧
      c1.ws_handshake_ = true ∧ bound_websocket c1 = some w) := by
  unfold reply_completion at h
  split at h
  · exact Or.inl (close_life_of_not_handshake hf h)
  · cases hc : c.ws_helper_ with
    | some hh =>
      simp only [hc] at h
      have hq := do_read_ws_header_life h
      refine Or.inr ⟨hh.websocket_, ?_, hq.1, ?_⟩
      · rw [hq.2.2]
        simp [base_connection.emit, lifecycle_append, lifecycle_cons, lifecycle_nil]
      · rw [hq.2.1]
        simp [bound_websocket, base_connection.emit, hc]
    | none =>
      simp only [hc] at h
      have hq := do_read_life h
      exact Or.inl ⟨hq.1.trans hf, by
        rw [hq.2.2]
        simp [base_connection.emit, lifecycle_append, lifecycle_cons, lifecycle_nil]⟩

theorem complete_life (e : collaborators) (ev : event) (op : async_op)
    {c c1 : base_connection} (hf : c.ws_handshake_ = false)
    (h : complete e ev op c = some c1) :
    (c1.ws_handshake_ = false ∧ lifecycle c1.trace = lifecycle c.trace) ∨
    (∃ w, lifecycle c1.trace = lifecycle c.trace ++ [effect.emit_open w true] ∧
      c1.ws_handshake_ = true ∧ bound_websocket c1 = some w) := by
  cases ev <;> cases op <;> simp only [complete, reduceCtorEq] at h <;>
    first
    | exact Or.inl (do_read_some_completion_life e _ _ _ hf h)
    | exact reply_completion_life _ _ hf h
    | exact Or.inl (ws_life_of_not_handshake hf (do_read_ws_header_completion_life h))
    | exact Or.inl (ws_life_of_not_handshake hf (do_read_ws_length_and_mask_completion_life h))
    | exact Or.inl (ws_life_of_not_handshake hf (do_read_ws_payload_completion_life h))
    | exact Or.inl (ws_life_of_not_handshake hf (do_write_ws_completion_life h))
    | (unfold do_handshake_completion at h
       split at h
       · exact Or.inl (close_life_of_not_handshake hf h)
       · simp only [do_read_some, Option.some.injEq] at h
         subst h
         exact Or.inl ⟨hf, by simp [base_connection.async, lifecycle_append, lifecycle_cons,
           lifecycle_nil]⟩)

theorem step_life (e : collaborators) (ev : event) {c c1 : base_connection}
    (hf : c.ws_handshake_ = false) (h : step e ev c = some c1) :
    (c1.ws_handshake_ = false ∧ lifecycle c1.trace = lifecycle c.trace) ∨
    (∃ w, lifecycle c1.trace = lifecycle c.trace ++ [effect.emit_open w true] ∧
      c1.ws_handshake_ = true ∧ bound_websocket c1 = some w) := by
  cases ev with
  | send f =>
    have hq := send_ws_frame_life h
    exact Or.inl ⟨hq.1.trans hf, hq.2.2⟩
  | close_call => exact Or.inl (close_life_of_not_handshake hf h)
  | _ =>
    simp only [step] at h
    split at h
    · simp at h
    · rename_i op others _
      have hx := complete_life e _ op
        (show ({ c with pending := others } : base_connection).ws_handshake_ = false from hf) h
      exact hx

theorem pre_ws_not_handshake {c : base_connection} (h : pre_ws c) : c.ws_handshake_ = false := by
  rcases h with h | h | h
  · exact h.2.2.2.2
  · exact h.2.2.1
  · exact h.2.1

theorem session_inv_step (e : collaborators) (ev : event) (c c1 : base_connection)
    (hc : (pre_ws c ∧ lifecycle c.trace = []) ∨ (ws_only c ∧ lifecycle_inv c))
    (h : step e ev c = some c1) :
    (pre_ws c1 ∧ lifecycle c1.trace = []) ∨ (ws_only c1 ∧ lifecycle_inv c1) := by
  rcases hc with ⟨hp, h0⟩ | ⟨hw, hI⟩
  · have hf := pre_ws_not_handshake hp
    have hph : phase_inv c1 := by
      rcases hp with hp | hp | hp
      · exact phase_inv_step e ev c c1 (Or.inl hp) h
      · exact phase_inv_step e ev c c1 (Or.inr (Or.inl hp)) h
      · exact phase_inv_step e ev c c1 (Or.inr (Or.inr (Or.inl hp))) h
    have hl := step_life e ev hf h
    have hpre : pre_ws c1 → (pre_ws c1 ∧ lifecycle c1.trace = []) := by
      intro hp1
      refine ⟨hp1, ?_⟩
      rcases hl with ⟨_, hl⟩ | ⟨w, _, hf1, _⟩
      · exact hl.trans h0
      · rw [pre_ws_not_handshake hp1] at hf1
        cases hf1
    rcases hph with h1 | h1 | h1 | h1
    · exact Or.inl (hpre (Or.inl h1))
    · exact Or.inl (hpre (Or.inr (Or.inl h1)))
    · exact Or.inl (hpre (Or.inr (Or.inr h1)))
    · refine Or.inr ⟨h1, ?_⟩
      rcases hl with ⟨hf1, hl⟩ | ⟨w, hl, hf1, hb⟩
      · exact Or.inl ⟨hl.trans h0, hf1⟩
      · exact Or.inr (Or.inl ⟨w, by rw [hl, h0]; rfl, hf1, hb⟩)
  · exact Or.inr ⟨ws_only_step e ev c c1 hw h,
      lifecycle_inv_of_ws_life hI (ws_only_step_life e ev c c1 hw h)⟩

theorem session_inv_steps (e : collaborators) (sched : List event) :
    ∀ (c c1 : base_connection),
      ((pre_ws c ∧ lifecycle c.trace = []) ∨ (ws_only c ∧ lifecycle_inv c)) →
      steps e sched c = some c1 →
      ((pre_ws c1 ∧ lifecycle c1.trace = []) ∨ (ws_only c1 ∧ lifecycle_inv c1)) := by
  induction sched with
  | nil =>
    intro c c1 hc h
    simp only [steps, Option.some.injEq] at h
    subst h
    exact hc
  | cons ev evs ih =>
    intro c c1 hc h
    simp only [steps] at h
    cases hs : step e ev c with
    | none => simp [hs] at h
    | some c2 =>
      rw [hs] at h
      exact ih c2 c1 (session_inv_step e ev c c2 hc hs) h

theorem session_inv_run (https : Bool) (c0 : base_connection)
    (h : run (accepted https) = some c0) : pre_ws c0 ∧ lifecycle c0.trace = [] := by
  cases https with
  | false =>
    simp only [run, do_read, accepted, Bool.false_eq_true, if_false, do_read_some,
      Option.some.injEq] at h
    subst h
    exact ⟨Or.inr (Or.inl ⟨rfl, rfl, rfl, by intro h; cases h⟩), rfl⟩
  | true =>
    simp only [run, do_read, accepted, if_true, Bool.false_eq_true, if_false, do_handshake,
      Option.some.injEq] at h
    subst h
    exact ⟨Or.inl ⟨rfl, rfl, rfl, rfl, rfl⟩, rfl⟩

/-- C19 (lifecycle event order): in every state a connection reaches from `run()` by any
schedule of completions, errors, `send` and `close()` calls, the open and close events
emitted so far are one of: none, with the handshake flag clear; exactly one open event,
with the flag set and the event carrying the bound websocket object; exactly one open
event followed by exactly one close event on the same object, with the flag clear again.
So each event is emitted at most once, a close event only after an open event, and the
flag is set exactly between the two (both events are delivered while the flag is set:
the open event after the flag is written, the close event before it is cleared). -/
theorem C19_lifecycle_event_order (e : collaborators) (c : base_connection)
    (h : reachable e c) :
    (lifecycle c.trace = [] ∧ c.ws_handshake_ = false) ∨
    (∃ w, lifecycle c.trace = [effect.emit_open w true] ∧ c.ws_handshake_ = true ∧
      bound_websocket c = some w) ∨
    (∃ w, lifecycle c.trace = [effect.emit_open w true, effect.emit_close w true] ∧
      c.ws_handshake_ = false) := by
  obtain ⟨https, sched, c0, hrun, hsteps⟩ := h
  rcases session_inv_steps e sched c0 c (Or.inl (session_inv_run https c0 hrun)) hsteps with
    ⟨hp, h0⟩ | ⟨_, hI⟩
  · exact Or.inl ⟨h0, pre_ws_not_handshake hp⟩
  · exact hI

/-- A plain connection that upgrades, receives the masked text frame "h", then a masked
close frame, and is closed once more from outside: it has emitted one open event and one
close event, in that order, and the flag is clear. -/
theorem C19_witness :
    ∃ c, (run (accepted false)).bind (steps plain session_schedule) = some c ∧
      lifecycle c.trace = [effect.emit_open 7 true, effect.emit_close 7 true] ∧
      c.ws_handshake_ = false ∧
      ((lifecycle c.trace = [] ∧ c.ws_handshake_ = false) ∨
       (∃ w, lifecycle c.trace = [effect.emit_open w true] ∧ c.ws_handshake_ = true ∧
         bound_websocket c = some w) ∨
       (∃ w, lifecycle c.trace = [effect.emit_open w true, effect.emit_close w true] ∧
         c.ws_handshake_ = false)) := by
  refine ⟨_, rfl, rfl, rfl,
    C19_lifecycle_event_order plain _ ⟨false, session_schedule, _, rfl, rfl⟩⟩

end cuehttp
